import Mathlib

/-!
Verification of the aris natural-deduction proof checker (`src/aris/src/rules.rs`)
against its specification.

The expression algebra, the proof interface and a few helpers (`free_vars`,
`subst`, `unify`, `disjuncts`, pretty printing) live in modules of the
repository that are not part of the provided sources; those are modelled from
the specification (each such definition says so in its doc comment).  All rule
checking logic is translated directly from `rules.rs`.

Conventions:
 * Rust `Vec` becomes `List`; `HashSet`s are modelled as duplicate-free lists
   (`List.dedup`), which preserves membership and cardinality — the only
   observations the checker makes — while fixing an iteration order that Rust
   leaves unspecified.
 * Rust panics (`unimplemented!`, `assert!`, out-of-bounds indexing) are made
   explicit with the `CheckResult.panicked` constructor, so that "returns an
   error value" and "panics" are distinguishable outcomes.
-/

/-- Binary operations accepted by `Expr.assoc` nodes; from the spec (§3) and the
`Op` uses visible in `rules.rs` (`Op::And`, `Op::Or`, `Op::Bicon`, `Op::Equiv`,
plus the arithmetic connectives `Add`/`Multiply`). -/
inductive Op
  | and | or | bicon | equiv | add | mult
deriving DecidableEq, Repr

/-- Quantifier kinds (`QuantKind::Forall` / `QuantKind::Exists` in the source). -/
inductive QuantKind
  | universal | existential
deriving DecidableEq, Repr

/-- Modelled from the spec: the expression language (§3 Data Model).  Variants:
`Contradiction`, `Variable`, `Predicate`, `Not`, `Implication`,
`Associative(op, operands)` and `Quantifier`; matches the constructors used by
pattern matches in `rules.rs` (`Expr::Contra`, `Expr::Var`, `Expr::Not`,
`Expr::Impl`, `Expr::Assoc`, `Expr::Quant`). -/
inductive Expr
  | contra
  | var (name : String)
  | pred (name : String) (args : List Expr)
  | not (operand : Expr)
  | impl (left : Expr) (right : Expr)
  | assoc (op : Op) (exprs : List Expr)
  | quant (kind : QuantKind) (name : String) (body : Expr)
deriving Repr

/-- Structural (Rust `PartialEq`-derived) equality test on expressions. -/
def Expr.beq : Expr → Expr → Bool
  | .contra, .contra => true
  | .var a, .var b => a == b
  | .pred n1 a1, .pred n2 a2 => n1 == n2 && go a1 a2
  | .not a, .not b => Expr.beq a b
  | .impl a b, .impl c d => Expr.beq a c && Expr.beq b d
  | .assoc o1 e1, .assoc o2 e2 => o1 == o2 && go e1 e2
  | .quant k1 n1 b1, .quant k2 n2 b2 => k1 == k2 && n1 == n2 && Expr.beq b1 b2
  | _, _ => false
where go : List Expr → List Expr → Bool
  | [], [] => true
  | a :: as, b :: bs => Expr.beq a b && go as bs
  | _, _ => false

mutual

theorem Expr.eq_of_beq : ∀ {a b : Expr}, Expr.beq a b = true → a = b
  | .contra, .contra, _ => rfl
  | .var a, .var b, h => by
    simp only [Expr.beq, beq_iff_eq] at h
    rw [h]
  | .pred n1 a1, .pred n2 a2, h => by
    simp only [Expr.beq, Bool.and_eq_true, beq_iff_eq] at h
    rw [h.1, Expr.eqList_of_beq h.2]
  | .not a, .not b, h => by
    rw [Expr.eq_of_beq (a := a) (b := b) h]
  | .impl a b, .impl c d, h => by
    simp only [Expr.beq, Bool.and_eq_true] at h
    rw [Expr.eq_of_beq h.1, Expr.eq_of_beq h.2]
  | .assoc o1 e1, .assoc o2 e2, h => by
    simp only [Expr.beq, Bool.and_eq_true, beq_iff_eq] at h
    rw [h.1, Expr.eqList_of_beq h.2]
  | .quant k1 n1 b1, .quant k2 n2 b2, h => by
    simp only [Expr.beq, Bool.and_eq_true, beq_iff_eq] at h
    obtain ⟨⟨h1, h2⟩, h3⟩ := h
    rw [h1, h2, Expr.eq_of_beq h3]

theorem Expr.eqList_of_beq : ∀ {a b : List Expr}, Expr.beq.go a b = true → a = b
  | [], [], _ => rfl
  | a :: as, b :: bs, h => by
    simp only [Expr.beq.go, Bool.and_eq_true] at h
    rw [Expr.eq_of_beq h.1, Expr.eqList_of_beq h.2]

end

mutual

theorem Expr.beq_refl : ∀ (a : Expr), Expr.beq a a = true
  | .contra => rfl
  | .var a => by simp [Expr.beq]
  | .pred n1 a1 => by simp [Expr.beq, Expr.beqList_refl a1]
  | .not a => by simpa [Expr.beq] using Expr.beq_refl a
  | .impl a b => by simp [Expr.beq, Expr.beq_refl a, Expr.beq_refl b]
  | .assoc o1 e1 => by simp [Expr.beq, Expr.beqList_refl e1]
  | .quant k1 n1 b1 => by simp [Expr.beq, Expr.beq_refl b1]

theorem Expr.beqList_refl : ∀ (a : List Expr), Expr.beq.go a a = true
  | [] => rfl
  | a :: as => by simp [Expr.beq.go, Expr.beq_refl a, Expr.beqList_refl as]

end

instance : DecidableEq Expr := fun a b =>
  if h : Expr.beq a b = true then isTrue (Expr.eq_of_beq h)
  else isFalse (fun he => h (he ▸ Expr.beq_refl a))

/-- Shorthand for `Expr::or(a, b)`: a two-element `Or` associative node. -/
def Expr.or (a b : Expr) : Expr := .assoc .or [a, b]

/-- Modelled from the spec: `Expr::impl_place_holder()` in `rules.rs`, the
"shape" expression used by `DepDoesNotExist`/`ConclusionOfWrongForm` errors;
following the underscore-variable placeholders that `rules.rs` builds inline
(e.g. `Expr::not(Expr::var("_"))`), it is an implication between two `_`
variables. -/
def Expr.impl_place_holder : Expr := .impl (.var "_") (.var "_")

/-- Modelled from the spec: `Expr::assocplaceholder(op)`, the placeholder for
"some `op`-associative expression", with underscore-variable operands. -/
def Expr.assocplaceholder (op : Op) : Expr := .assoc op [.var "_", .var "_"]

/-- Modelled from the spec: `Expr::quant_placeholder(kind)`, the placeholder for
"some `kind`-quantified expression". -/
def Expr.quant_placeholder (kind : QuantKind) : Expr :=
  .quant kind "_" (.var "_")

/-- Modelled from the spec (§4.1): `free_vars(e)` returns the variable names
free in `e` (here as a list; only membership is ever observed). -/
def free_vars : Expr → List String
  | .contra => []
  | .var n => [n]
  | .pred _ args => go args
  | .not e => free_vars e
  | .impl a b => free_vars a ++ free_vars b
  | .assoc _ es => go es
  | .quant _ n b => (free_vars b).filter (fun v => v ≠ n)
where go : List Expr → List String
  | [] => []
  | e :: es => free_vars e ++ go es

/-- Modelled from the spec (§4.1): `disjuncts(e)`; the operand list of an
`Or`-associative, `[e]` otherwise. -/
def Expr.disjuncts : Expr → List Expr
  | .assoc .or exprs => exprs
  | e => [e]

/-- Modelled from the spec (§6.1 / §4.1): pretty-printing of expressions
(Rust's `Display`).  Only used to build `Other(...)` error message strings;
no theorem below depends on its exact output. -/
def Expr.display : Expr → String
  | .contra => "_|_"
  | .var n => n
  | .pred n args => n ++ "(" ++ String.intercalate ", " (go args) ++ ")"
  | .not e => "~" ++ Expr.display e
  | .impl a b => "(" ++ Expr.display a ++ " -> " ++ Expr.display b ++ ")"
  | .assoc op es => "(" ++ String.intercalate (opSym op) (go es) ++ ")"
  | .quant .universal n b => "(forall " ++ n ++ ", " ++ Expr.display b ++ ")"
  | .quant .existential n b => "(exists " ++ n ++ ", " ++ Expr.display b ++ ")"
where
  opSym : Op → String
    | .and => " & " | .or => " | " | .bicon => " <-> "
    | .equiv => " === " | .add => " + " | .mult => " * "
  go : List Expr → List String
    | [] => []
    | e :: es => Expr.display e :: go es

/-- Modelled from the spec: picks a variable name based on `base` that does not
occur in `avoid` (used by capture-avoiding substitution to rename a bound
variable). -/
def freshen (base : String) (avoid : List String) : String :=
  match (List.range (avoid.length + 1)).find?
      (fun i => !(avoid.contains (base ++ toString i))) with
  | some i => base ++ toString i
  | none => base

/-- Modelled from the spec (§3): capture-avoiding substitution
`subst(e, x, t)` replacing free occurrences of variable `x` in `e` by `t`,
renaming bound variables of `e` that would capture free variables of `t`.
Totality is obtained with a recursion-depth budget (first argument); the
budget chosen by `subst` below is generous enough for every concrete use. -/
def substFuel : Nat → Expr → String → Expr → Expr
  | 0, e, _, _ => e
  | _ + 1, .contra, _, _ => .contra
  | _ + 1, .var y, x, t => if y = x then t else .var y
  | n + 1, .pred f args, x, t => .pred f (args.map (fun e => substFuel n e x t))
  | n + 1, .not e, x, t => .not (substFuel n e x t)
  | n + 1, .impl a b, x, t => .impl (substFuel n a x t) (substFuel n b x t)
  | n + 1, .assoc op es, x, t => .assoc op (es.map (fun e => substFuel n e x t))
  | n + 1, .quant k y body, x, t =>
    if y = x then .quant k y body
    else if (free_vars t).contains y then
      let fresh := freshen y (free_vars t ++ free_vars body ++ [x])
      .quant k fresh (substFuel n (substFuel n body y (.var fresh)) x t)
    else .quant k y (substFuel n body x t)

/-- Size measure used to pick recursion budgets for the fuelled functions. -/
def Expr.size : Expr → Nat
  | .contra => 1
  | .var _ => 1
  | .pred _ args => 1 + go args
  | .not e => 1 + Expr.size e
  | .impl a b => 1 + Expr.size a + Expr.size b
  | .assoc _ es => 1 + go es
  | .quant _ _ b => 1 + Expr.size b
where go : List Expr → Nat
  | [] => 0
  | e :: es => Expr.size e + go es

/-- Modelled from the spec: `subst` with a budget that cannot be exhausted on
the recursion paths above. -/
def subst (e : Expr) (x : String) (t : Expr) : Expr :=
  substFuel (2 * Expr.size e + 1) e x t

/-- Modelled from the spec (§4.2): Robinson unification over expressions.
Input: equality constraints; output: `none` (no unifier) or an ordered list of
`(variable, expression)` bindings.  Totality via a fuel argument. -/
def unifyFuel : Nat → List (Expr × Expr) → Option (List (String × Expr))
  | 0, _ => none
  | _ + 1, [] => some []
  | n + 1, (l, r) :: rest =>
    if l = r then unifyFuel n rest
    else match l, r with
      | .var x, t =>
        if (free_vars t).contains x then none
        else (unifyFuel n (rest.map (fun c => (subst c.1 x t, subst c.2 x t)))).map
          (fun s => (x, t) :: s)
      | t, .var x =>
        if (free_vars t).contains x then none
        else (unifyFuel n (rest.map (fun c => (subst c.1 x t, subst c.2 x t)))).map
          (fun s => (x, t) :: s)
      | .not a, .not b => unifyFuel n ((a, b) :: rest)
      | .impl a b, .impl c d => unifyFuel n ((a, c) :: (b, d) :: rest)
      | .pred f as, .pred g bs =>
        if f = g ∧ as.length = bs.length then unifyFuel n (as.zip bs ++ rest) else none
      | .assoc op as, .assoc op2 bs =>
        if op = op2 ∧ as.length = bs.length then unifyFuel n (as.zip bs ++ rest) else none
      | .quant k x b1, .quant k2 y b2 =>
        if k = k2 ∧ x = y then unifyFuel n ((b1, b2) :: rest) else none
      | _, _ => none

/-- Modelled from the spec: `unify` entry point with a generous budget. -/
def unify (constraints : List (Expr × Expr)) : Option (List (String × Expr)) :=
  let total := constraints.foldl (fun acc c => acc + Expr.size c.1 + Expr.size c.2) 0
  unifyFuel (total * total + total + 1) constraints

example : Expr.disjuncts (Expr.or (.var "a") (.not (.var "a"))) = [.var "a", .not (.var "a")] := by decide

example : subst (.quant .universal "x" (.pred "P" [.var "x", .var "y"])) "y" (.var "z")
    = .quant .universal "x" (.pred "P" [.var "x", .var "z"]) := by decide

example : unify [(.pred "P" [.var "x"], .pred "P" [.var "c"])] = some [("x", .var "c")] := by decide

/-- Modelled from the spec (§4.8): a premise-or-justification line reference
(`PJRef<P>` in the source, a coproduct of the two reference types).  `inl` is a
premise reference, `inr` a justification reference; both are modelled as
indices. -/
abbrev PJRef := Sum Nat Nat

/-- Translated from `rules.rs` (`pub enum ProofCheckError<R, S>`), instantiated
at `R := PJRef`, `S := Nat` (subproof references).  `OneOf` carries a
`BTreeSet`; here a duplicate-free list. -/
inductive ProofCheckError
  | lineDoesNotExist (r : PJRef)
  | subproofDoesNotExist (s : Nat)
  | referencesLaterLine (line : PJRef) (dep : Sum PJRef Nat)
  | incorrectDepCount (deps : List PJRef) (n : Nat)
  | incorrectSubDepCount (sdeps : List Nat) (n : Nat)
  | depOfWrongForm (x : Expr) (y : Expr)
  | conclusionOfWrongForm (e : Expr)
  | doesNotOccur (x : Expr) (y : Expr)
  | depDoesNotExist (e : Expr) (approx : Bool)
  | oneOf (errs : List ProofCheckError)
  | other (msg : String)
deriving Repr

/-- Structural equality test on proof-check errors (Rust `PartialEq`). -/
def ProofCheckError.beq : ProofCheckError → ProofCheckError → Bool
  | .lineDoesNotExist a, .lineDoesNotExist b => decide (a = b)
  | .subproofDoesNotExist a, .subproofDoesNotExist b => decide (a = b)
  | .referencesLaterLine a c, .referencesLaterLine b d => decide (a = b) && decide (c = d)
  | .incorrectDepCount a m, .incorrectDepCount b n => decide (a = b) && decide (m = n)
  | .incorrectSubDepCount a m, .incorrectSubDepCount b n => decide (a = b) && decide (m = n)
  | .depOfWrongForm a c, .depOfWrongForm b d => decide (a = b) && decide (c = d)
  | .conclusionOfWrongForm a, .conclusionOfWrongForm b => decide (a = b)
  | .doesNotOccur a c, .doesNotOccur b d => decide (a = b) && decide (c = d)
  | .depDoesNotExist a c, .depDoesNotExist b d => decide (a = b) && decide (c = d)
  | .oneOf a, .oneOf b => go a b
  | .other a, .other b => decide (a = b)
  | _, _ => false
where go : List ProofCheckError → List ProofCheckError → Bool
  | [], [] => true
  | a :: as, b :: bs => ProofCheckError.beq a b && go as bs
  | _, _ => false

mutual

theorem ProofCheckError.eq_of_pceBeq :
    ∀ {a b : ProofCheckError}, ProofCheckError.beq a b = true → a = b
  | .lineDoesNotExist a, .lineDoesNotExist b, h => by
    simp only [ProofCheckError.beq, decide_eq_true_eq] at h; rw [h]
  | .subproofDoesNotExist a, .subproofDoesNotExist b, h => by
    simp only [ProofCheckError.beq, decide_eq_true_eq] at h; rw [h]
  | .referencesLaterLine a c, .referencesLaterLine b d, h => by
    simp only [ProofCheckError.beq, Bool.and_eq_true, decide_eq_true_eq] at h; rw [h.1, h.2]
  | .incorrectDepCount a m, .incorrectDepCount b n, h => by
    simp only [ProofCheckError.beq, Bool.and_eq_true, decide_eq_true_eq] at h; rw [h.1, h.2]
  | .incorrectSubDepCount a m, .incorrectSubDepCount b n, h => by
    simp only [ProofCheckError.beq, Bool.and_eq_true, decide_eq_true_eq] at h; rw [h.1, h.2]
  | .depOfWrongForm a c, .depOfWrongForm b d, h => by
    simp only [ProofCheckError.beq, Bool.and_eq_true, decide_eq_true_eq] at h; rw [h.1, h.2]
  | .conclusionOfWrongForm a, .conclusionOfWrongForm b, h => by
    simp only [ProofCheckError.beq, decide_eq_true_eq] at h; rw [h]
  | .doesNotOccur a c, .doesNotOccur b d, h => by
    simp only [ProofCheckError.beq, Bool.and_eq_true, decide_eq_true_eq] at h; rw [h.1, h.2]
  | .depDoesNotExist a c, .depDoesNotExist b d, h => by
    simp only [ProofCheckError.beq, Bool.and_eq_true, decide_eq_true_eq] at h; rw [h.1, h.2]
  | .oneOf a, .oneOf b, h => by
    simp only [ProofCheckError.beq] at h
    rw [ProofCheckError.eqList_of_pceBeq h]
  | .other a, .other b, h => by
    simp only [ProofCheckError.beq, decide_eq_true_eq] at h; rw [h]

theorem ProofCheckError.eqList_of_pceBeq :
    ∀ {a b : List ProofCheckError}, ProofCheckError.beq.go a b = true → a = b
  | [], [], _ => rfl
  | a :: as, b :: bs, h => by
    simp only [ProofCheckError.beq.go, Bool.and_eq_true] at h
    rw [ProofCheckError.eq_of_pceBeq h.1, ProofCheckError.eqList_of_pceBeq h.2]

end

mutual

theorem ProofCheckError.pceBeq_refl : ∀ (a : ProofCheckError), ProofCheckError.beq a a = true
  | .lineDoesNotExist a => by simp [ProofCheckError.beq]
  | .subproofDoesNotExist a => by simp [ProofCheckError.beq]
  | .referencesLaterLine a c => by simp [ProofCheckError.beq]
  | .incorrectDepCount a m => by simp [ProofCheckError.beq]
  | .incorrectSubDepCount a m => by simp [ProofCheckError.beq]
  | .depOfWrongForm a c => by simp [ProofCheckError.beq]
  | .conclusionOfWrongForm a => by simp [ProofCheckError.beq]
  | .doesNotOccur a c => by simp [ProofCheckError.beq]
  | .depDoesNotExist a c => by simp [ProofCheckError.beq]
  | .oneOf a => by simpa [ProofCheckError.beq] using ProofCheckError.pceBeqList_refl a
  | .other a => by simp [ProofCheckError.beq]

theorem ProofCheckError.pceBeqList_refl :
    ∀ (a : List ProofCheckError), ProofCheckError.beq.go a a = true
  | [] => rfl
  | a :: as => by
    simp [ProofCheckError.beq.go, ProofCheckError.pceBeq_refl a, ProofCheckError.pceBeqList_refl as]

end

instance : DecidableEq ProofCheckError := fun a b =>
  if h : ProofCheckError.beq a b = true then isTrue (ProofCheckError.eq_of_pceBeq h)
  else isFalse (fun he => h (he ▸ ProofCheckError.pceBeq_refl a))

/-- Outcome of one rule check.  `ok`/`err` are `Ok(())`/`Err(e)` of the Rust
`Result`; `panicked` makes Rust panics (`unimplemented!`, failed `assert!`,
out-of-bounds indexing) an explicit, distinguishable outcome. -/
inductive CheckResult
  | ok
  | err (e : ProofCheckError)
  | panicked (msg : String)
deriving DecidableEq, Repr

/-- Translated from `rules.rs`: helper type for `any_order()`. -/
inductive AnyOrderResult
  | ok
  | err (e : ProofCheckError)
  | wrongOrder
deriving DecidableEq, Repr

/-- Modelled from the spec (§4.8): the capabilities of a subproof that the
rule checks consume.  Line references are as in the enclosing proof; function
fields model the trait methods of the narrow proof interface. -/
structure SubproofI where
  /-- References of the subproof's premises (`premises()`). -/
  premiseRefs : List Nat
  /-- Justification references among the subproof's lines (`lines()` filtered
  to `JustificationReference`, as the rule checks use it). -/
  justLineRefs : List Nat
  /-- References of the lines carrying expressions (`exprs()`). -/
  exprRefs : List PJRef
  /-- Expression lookup within the subproof (`lookup_expr`). -/
  lookupExpr : PJRef → Option Expr
  /-- Transitive dependencies of a line (`transitive_dependencies`). -/
  transitiveDeps : PJRef → List PJRef
  /-- Justifications contained in the subproof (`contained_justifications(true)`). -/
  containedJustifications : List PJRef

/-- Modelled from the spec (§4.8): the proof interface (`P: Proof`) consumed by
the rule checks, with references modelled as indices resolved by lookup
functions. -/
structure ProofI where
  /-- Expression lookup for a premise-or-justification reference. -/
  lookupExpr : PJRef → Option Expr
  /-- Premise lookup (`lookup_premise`). -/
  lookupPremise : Nat → Option Expr
  /-- Subproof lookup (`lookup_subproof`). -/
  lookupSubproof : Nat → Option SubproofI

/-- Translated from the `lookup_expr_or_die` helper of the proof interface:
a failing lookup becomes `LineDoesNotExist`. -/
def ProofI.lookupExprOrDie (p : ProofI) (r : PJRef) : Except ProofCheckError Expr :=
  match p.lookupExpr r with
  | some e => .ok e
  | none => .error (.lineDoesNotExist r)

/-- Translated from `lookup_premise_or_die`. -/
def ProofI.lookupPremiseOrDie (p : ProofI) (r : Nat) : Except ProofCheckError Expr :=
  match p.lookupPremise r with
  | some e => .ok e
  | none => .error (.lineDoesNotExist (Sum.inl r))

/-- Translated from `lookup_subproof_or_die`: a failing lookup becomes
`SubproofDoesNotExist`. -/
def ProofI.lookupSubproofOrDie (p : ProofI) (r : Nat) : Except ProofCheckError SubproofI :=
  match p.lookupSubproof r with
  | some s => .ok s
  | none => .error (.subproofDoesNotExist r)

/-- Subproof-side `lookup_expr_or_die` (used by `ExistsElim` through
`sproof.lookup_expr_or_die`). -/
def SubproofI.lookupExprOrDie (s : SubproofI) (r : PJRef) : Except ProofCheckError Expr :=
  match s.lookupExpr r with
  | some e => .ok e
  | none => .error (.lineDoesNotExist r)

/-- Rust `Vec::remove`-each helper: all ways of picking one element out of a
list, pairing it with the remaining elements in order. -/
def removeEach : List α → List (α × List α)
  | [] => []
  | x :: xs => (x, xs) :: (removeEach xs).map (fun p => (p.1, x :: p.2))

theorem removeEach_length_snd :
    ∀ (l : List α) (p : α × List α), p ∈ removeEach l → p.2.length + 1 = l.length
  | x :: xs, p, h => by
    rcases List.mem_cons.mp h with h | h
    · subst h; rfl
    · obtain ⟨q, hq, rfl⟩ := List.mem_map.mp h
      have := removeEach_length_snd xs q hq
      simp [List.length_cons]
      omega

/-- Permutation enumeration in the order produced by itertools'
`permutations(len)`: pick each element as head (in index order), then recurse
on the rest.  Driven by a length budget so every recursive call is structural. -/
def permutationsFuel : Nat → List α → List (List α)
  | 0, _ => [[]]
  | _ + 1, [] => [[]]
  | n + 1, l => (removeEach l).flatMap (fun p => (permutationsFuel n p.2).map (p.1 :: ·))

/-- All permutations of `l`, itertools style. -/
def permutationsR (l : List α) : List (List α) := permutationsFuel l.length l

example : permutationsR [1, 2] = [[1, 2], [2, 1]] := by decide

example : permutationsR [1, 2, 3] =
    [[1, 2, 3], [1, 3, 2], [2, 1, 3], [2, 3, 1], [3, 1, 2], [3, 2, 1]] := by decide

/-- Rust's `Iterator::any(p)`: consumes items until the predicate holds,
returning whether it did together with the items NOT yet consumed.  When the
predicate never holds the whole iterator has been consumed and the remainder is
empty — this consumption is observable in `any_order` below. -/
def iterAny (p : α → Bool) : List α → Bool × List α
  | [] => (false, [])
  | x :: xs => if p x then (true, xs) else iterAny p xs

theorem iterAny_false_nil (p : α → Bool) :
    ∀ (l : List α) (rest : List α), iterAny p l = (false, rest) → rest = [] := by
  intro l
  induction l with
  | nil => intro rest h; simp only [iterAny, Prod.mk.injEq] at h; exact h.2.symm
  | cons x xs ih =>
    intro rest h
    by_cases hx : p x
    · simp [iterAny, hx] at h
    · simp only [iterAny, hx, if_neg, Bool.false_eq_true] at h
      exact ih rest h

/-- Predicate used with `iterAny` for `result.is_ok()`. -/
def exceptIsOk : Except ProofCheckError Unit → Bool
  | .ok _ => true
  | .error _ => false

theorem iterAny_fst (p : α → Bool) : ∀ (l : List α), (iterAny p l).1 = l.any p := by
  intro l
  induction l with
  | nil => rfl
  | cons x xs ih =>
    by_cases hx : p x <;> simp [iterAny, hx, ih]

/-- Translated from `rules.rs` (`fn any_order`): try `check_func` on every
permutation of `deps`.  The Rust implementation materialises a lazy iterator
`results` and first runs `results.any(|result| result.is_ok())`; `Iterator::any`
consumes the iterator, so when it returns `false` the iterator is exhausted and
the subsequent error collection iterates over nothing (`iterAny` returns the
unconsumed remainder, provably `[]` in that case).  The error set is a
`BTreeSet` in Rust, modelled as a duplicate-free list. -/
def any_order (deps : List Expr) (check_func : List Expr → AnyOrderResult)
    (fallthrough_error : ProofCheckError) : CheckResult :=
  let results : List (Except ProofCheckError Unit) :=
    (permutationsR deps).filterMap (fun ds =>
      match check_func ds with
      | .ok => some (Except.ok ())
      | .err e => some (Except.error e)
      | .wrongOrder => none)
  match iterAny exceptIsOk results with
  | (true, _) => .ok
  | (false, rest) =>
    let errors := (rest.filterMap (fun r =>
      match r with
      | .error e => some e
      | .ok _ => none)).dedup
    match errors with
    | [] => .err fallthrough_error
    | [e] => .err e
    | es => .err (.oneOf es)

/-- Translated from `rules.rs` (`fn either_order`): the two-dependency special
case of `any_order`. -/
def either_order (dep_1 dep_2 : Expr) (check_func : Expr → Expr → AnyOrderResult)
    (fallthrough_error : ProofCheckError) : CheckResult :=
  any_order [dep_1, dep_2]
    (fun deps =>
      match deps with
      | [d1, d2] => check_func d1 d2
      | _ => .wrongOrder)
    fallthrough_error

/-- Pretty "{a, b, c}" rendering used in the Resolution error message. -/
def prettySet (l : List Expr) : String :=
  "\x7b" ++ String.intercalate ", " (l.map Expr.display) ++ "\x7d"

/-- Translated from `rules.rs` (`fn do_expressions_contradict`): succeeds iff
one of the two expressions is exactly the negation of the other. -/
def do_expressions_contradict (prem1 prem2 : Expr) : CheckResult :=
  either_order prem1 prem2
    (fun i j =>
      match i with
      | .not operand => if operand = j then .ok else .wrongOrder
      | _ => .wrongOrder)
    (.other ("Expected one of \x7b" ++ prem1.display ++ ", " ++ prem2.display ++
      "\x7d to be the negation of the other."))

theorem any_order_spec (deps : List Expr) (f : List Expr → AnyOrderResult)
    (ft : ProofCheckError) :
    (any_order deps f ft = .ok ∧ ∃ ds ∈ permutationsR deps, f ds = .ok) ∨
    (any_order deps f ft = .err ft ∧ ∀ ds ∈ permutationsR deps, f ds ≠ .ok) := by
  unfold any_order
  rcases h : iterAny exceptIsOk ((permutationsR deps).filterMap (fun ds =>
      match f ds with
      | .ok => some (Except.ok ())
      | .err e => some (Except.error e)
      | .wrongOrder => none)) with ⟨b, rest⟩
  have hany := iterAny_fst exceptIsOk ((permutationsR deps).filterMap (fun ds =>
      match f ds with
      | .ok => some (Except.ok ())
      | .err e => some (Except.error e)
      | .wrongOrder => none))
  rw [h] at hany
  cases b with
  | true =>
    left
    constructor
    · simp only [h]
    · have : ∃ r ∈ (permutationsR deps).filterMap (fun ds =>
          match f ds with
          | .ok => some (Except.ok ())
          | .err e => some (Except.error e)
          | .wrongOrder => none), exceptIsOk r = true := by
        rw [← List.any_eq_true]; exact hany.symm
      obtain ⟨r, hr, hok⟩ := this
      obtain ⟨ds, hds, hmap⟩ := List.mem_filterMap.mp hr
      refine ⟨ds, hds, ?_⟩
      rcases hfds : f ds with _ | e | _
      · rfl
      · rw [hfds] at hmap
        have hmap2 : some (Except.error (α := Unit) e) = some r := hmap
        rw [← Option.some.inj hmap2] at hok
        simp [exceptIsOk] at hok
      · rw [hfds] at hmap
        have hmap2 : (none : Option (Except ProofCheckError Unit)) = some r := hmap
        exact Option.noConfusion hmap2
  | false =>
    right
    have hrest : rest = [] := iterAny_false_nil _ _ _ h
    subst hrest
    constructor
    · simp only [h, List.filterMap_nil, List.dedup_nil]
    · intro ds hds hok
      have hmem : Except.ok () ∈ (permutationsR deps).filterMap (fun ds =>
          match f ds with
          | .ok => some (Except.ok ())
          | .err e => some (Except.error e)
          | .wrongOrder => none) := by
        apply List.mem_filterMap.mpr
        exact ⟨ds, hds, by rw [hok]⟩
      have : ((permutationsR deps).filterMap (fun ds =>
          match f ds with
          | .ok => some (Except.ok ())
          | .err e => some (Except.error e)
          | .wrongOrder => none)).any exceptIsOk = true := by
        rw [List.any_eq_true]
        exact ⟨Except.ok (), hmem, rfl⟩
      rw [this] at hany
      exact Bool.noConfusion hany

theorem permutationsR_pair (a b : α) : permutationsR [a, b] = [[a, b], [b, a]] := rfl

theorem either_order_ok_iff (d1 d2 : Expr) (f : Expr → Expr → AnyOrderResult)
    (ft : ProofCheckError) :
    either_order d1 d2 f ft = .ok ↔ (f d1 d2 = .ok ∨ f d2 d1 = .ok) := by
  unfold either_order
  have hspec := any_order_spec [d1, d2] (fun deps =>
      match deps with
      | [e1, e2] => f e1 e2
      | _ => .wrongOrder) ft
  cases hspec with
  | inl hcase =>
    obtain ⟨hok, ds, hds, hfds⟩ := hcase
    rw [permutationsR_pair] at hds
    simp only [List.mem_cons, List.not_mem_nil, or_false] at hds
    constructor
    · intro _
      rcases hds with h | h
      · subst h; exact Or.inl hfds
      · subst h; exact Or.inr hfds
    · intro _; exact hok
  | inr hcase =>
    obtain ⟨herr, hall⟩ := hcase
    rw [permutationsR_pair] at hall
    constructor
    · intro h; rw [herr] at h; exact CheckResult.noConfusion h
    · intro h
      exfalso
      rcases h with h | h
      · exact hall [d1, d2] (by simp) h
      · exact hall [d2, d1] (by simp) h

theorem either_order_fallthrough (d1 d2 : Expr) (f : Expr → Expr → AnyOrderResult)
    (ft : ProofCheckError) (h1 : f d1 d2 ≠ .ok) (h2 : f d2 d1 ≠ .ok) :
    either_order d1 d2 f ft = .err ft := by
  have hspec := any_order_spec [d1, d2] (fun deps =>
      match deps with
      | [e1, e2] => f e1 e2
      | _ => .wrongOrder) ft
  cases hspec with
  | inl hcase =>
    obtain ⟨hok, ds, hds, hfds⟩ := hcase
    rw [permutationsR_pair] at hds
    simp only [List.mem_cons, List.not_mem_nil, or_false] at hds
    exfalso
    rcases hds with h | h
    · subst h; exact h1 hfds
    · subst h; exact h2 hfds
  | inr hcase =>
    exact hcase.1

/-- Constructor index, used for the derived total order on expressions. -/
def Expr.ctorIdx : Expr → Nat
  | .contra => 0
  | .var _ => 1
  | .pred _ _ => 2
  | .not _ => 3
  | .impl _ _ => 4
  | .assoc _ _ => 5
  | .quant _ _ _ => 6

/-- Index of an `Op`, for ordering. -/
def Op.toIdx : Op → Nat
  | .and => 0 | .or => 1 | .bicon => 2 | .equiv => 3 | .add => 4 | .mult => 5

/-- Index of a `QuantKind`, for ordering. -/
def QuantKind.toIdx : QuantKind → Nat
  | .universal => 0 | .existential => 1

/-- Modelled from the spec (§3 "total order defined structurally"): the derived
`Ord` on expressions (variant order first, then fields lexicographically, lists
lexicographic).  `Resolution` sorts its remainder with it; no theorem below
depends on the exact order chosen. -/
def Expr.cmp : Expr → Expr → Ordering
  | .contra, .contra => .eq
  | .var a, .var b => compare a b
  | .pred n1 a1, .pred n2 a2 => (compare n1 n2).then (go a1 a2)
  | .not a, .not b => Expr.cmp a b
  | .impl a b, .impl c d => (Expr.cmp a c).then (Expr.cmp b d)
  | .assoc o1 e1, .assoc o2 e2 => (compare o1.toIdx o2.toIdx).then (go e1 e2)
  | .quant k1 n1 b1, .quant k2 n2 b2 =>
    (compare k1.toIdx k2.toIdx).then ((compare n1 n2).then (Expr.cmp b1 b2))
  | a, b => compare a.ctorIdx b.ctorIdx
where go : List Expr → List Expr → Ordering
  | [], [] => .eq
  | [], _ :: _ => .lt
  | _ :: _, [] => .gt
  | a :: as, b :: bs => (Expr.cmp a b).then (go as bs)

/-- Non-strict comparison `a <= b` under `Expr.cmp` (what `Vec::sort` uses). -/
def exprLe (a b : Expr) : Prop := Expr.cmp a b ≠ Ordering.gt

instance : DecidableRel exprLe := fun a b => by
  unfold exprLe; infer_instance

/-- Rust's `collect::<Result<Vec<_>, _>>()`: first error wins. -/
def collectResults : List (Except ProofCheckError α) → Except ProofCheckError (List α)
  | [] => .ok []
  | .error e :: _ => .error e
  | .ok a :: rest => (collectResults rest).map (a :: ·)

/-- Metadata threaded through the `SharedChecks` wrapper: the inner rule's
`num_deps`/`num_subdeps` and its `check` body (the `RuleT` trait surface that
`SharedChecks<T>` consumes). -/
structure RuleT where
  num_deps : Option Nat
  num_subdeps : Option Nat
  body : ProofI → Expr → List PJRef → List Nat → CheckResult

/-- Subproof-dependency count part of the shared pre-checks. -/
def SharedChecks.checkSub (t : RuleT) (p : ProofI) (expr : Expr) (deps : List PJRef)
    (sdeps : List Nat) : CheckResult :=
  match t.num_subdeps with
  | some subs =>
    if sdeps.length ≠ subs then .err (.incorrectSubDepCount sdeps subs)
    else t.body p expr deps sdeps
  | none => t.body p expr deps sdeps

/-- Translated from `rules.rs` (`impl<T: RuleT> RuleT for SharedChecks<T>`,
`fn check`): if the metadata specifies a direct-dependency count and it is
mismatched, fail with `IncorrectDepCount`; then likewise for subproof
dependencies with `IncorrectSubDepCount`; only then run the inner rule body. -/
def SharedChecks.check (t : RuleT) (p : ProofI) (expr : Expr) (deps : List PJRef)
    (sdeps : List Nat) : CheckResult :=
  match t.num_deps with
  | some directs =>
    if deps.length ≠ directs then .err (.incorrectDepCount deps directs)
    else SharedChecks.checkSub t p expr deps sdeps
  | none => SharedChecks.checkSub t p expr deps sdeps

/-- Translated from `rules.rs` lines 1572-1598
(`RedundantPrepositionalInference::check`, `ModusTollens` arm), including the
family-level `assert!(sdeps.is_empty())`. -/
def modusTollensCheck (proof : ProofI) (conclusion : Expr) (deps : List PJRef)
    (sdeps : List Nat) : CheckResult :=
  if !sdeps.isEmpty then .panicked "assertion failed: sdeps.is_empty()"
  else match deps.get? 0, deps.get? 1 with
    | some r0, some r1 =>
      match proof.lookupExprOrDie r0 with
      | .error e => .err e
      | .ok dep_0 =>
        match proof.lookupExprOrDie r1 with
        | .error e => .err e
        | .ok dep_1 =>
          either_order dep_0 dep_1
            (fun i j =>
              match i with
              | .impl p q =>
                let not_p := Expr.not p
                let not_q := Expr.not q
                if not_q ≠ j then .err (.doesNotOccur not_q j)
                else if not_p ≠ conclusion then .err (.doesNotOccur not_p conclusion)
                else .ok
              | _ => .wrongOrder)
            (.depDoesNotExist Expr.impl_place_holder true)
    | _, _ => .panicked "index out of bounds"

/-- Translated from `rules.rs` lines 1640-1662
(`RedundantPrepositionalInference::check`, `ExcludedMiddle` arm), including the
family-level `assert!(sdeps.is_empty())`.  The conclusion must be a two-operand
`Or` whose second operand is the negation of the first. -/
def excludedMiddleCheck (_proof : ProofI) (conclusion : Expr) (_deps : List PJRef)
    (sdeps : List Nat) : CheckResult :=
  if !sdeps.isEmpty then .panicked "assertion failed: sdeps.is_empty()"
  else
    let wrong_form_err := ProofCheckError.conclusionOfWrongForm
      (Expr.or (.var "_") (.not (.var "_")))
    match conclusion with
    | .assoc .or operands =>
      match operands with
      | [a, not_a] =>
        let not_a_0 := not_a
        let not_a_1 := Expr.not a
        if not_a_0 = not_a_1 then .ok else .err (.doesNotOccur not_a_0 not_a_1)
      | _ => .err wrong_form_err
    | _ => .err wrong_form_err

/-- Translated from `rules.rs` lines 583-600 (`PrepositionalInference::check`,
`AndElim` arm): the dependency must be an `And`-associative and the conclusion
must equal one of its operands. -/
def andElimCheck (p : ProofI) (conclusion : Expr) (deps : List PJRef)
    (_sdeps : List Nat) : CheckResult :=
  match deps.get? 0 with
  | none => .panicked "index out of bounds"
  | some r0 =>
    match p.lookupExprOrDie r0 with
    | .error e => .err e
    | .ok prem =>
      match prem with
      | .assoc .and exprs =>
        if exprs.contains conclusion then .ok
        else .err (.doesNotOccur conclusion (.assoc .and exprs))
      | _ => .err (.depDoesNotExist (Expr.assocplaceholder .and) true)

/-- HashSet `s` of the BiconditionalElim per-ordering closure: the operands of
`j` if `j` is itself a biconditional, otherwise the singleton `j` (modelled as
a list; only membership is observed). -/
def biconElimOperandSet (j : Expr) : List Expr :=
  match j with
  | .assoc .bicon jexprs => jexprs
  | _ => [j]

/-- Conclusion expected by BiconditionalElim: the operands of `exprs` not in
`s`, as a bare expression when exactly one remains, as a biconditional
otherwise. -/
def biconElimExpected (exprs : List Expr) (s : List Expr) : Expr :=
  let terms := exprs.filter (fun x => !s.contains x)
  match terms with
  | [t] => t
  | _ => .assoc .bicon terms

/-- Translated from the per-ordering closure of `rules.rs` lines 788-842
(`PrepositionalInference::check`, `BiconditionalElim` arm): `i` must be a
biconditional; every element of `s` (from `j`) must occur among the operands of
`i`; and the conclusion must equal the biconditional of the remaining
operands. -/
def biconElimOrderCheck (conclusion : Expr) (i j : Expr) : AnyOrderResult :=
  match i with
  | .assoc .bicon exprs =>
    let s := biconElimOperandSet j
    match s.find? (fun prem => !exprs.contains prem) with
    | some prem => .err (.doesNotOccur prem (.assoc .bicon exprs))
    | none =>
      let expected := biconElimExpected exprs s
      if conclusion ≠ expected then .err (.doesNotOccur conclusion expected)
      else .ok
  | _ => .wrongOrder

/-- Translated from `rules.rs` lines 788-842 (`BiconditionalElim`): resolve the
two dependencies, then try `biconElimOrderCheck` in either order. -/
def biconditionalElimCheck (p : ProofI) (conclusion : Expr) (deps : List PJRef)
    (_sdeps : List Nat) : CheckResult :=
  match deps.get? 0, deps.get? 1 with
  | some r0, some r1 =>
    match p.lookupExprOrDie r0 with
    | .error e => .err e
    | .ok prem1 =>
      match p.lookupExprOrDie r1 with
      | .error e => .err e
      | .ok prem2 =>
        either_order prem1 prem2 (biconElimOrderCheck conclusion)
          (.depDoesNotExist (Expr.assocplaceholder .bicon) true)
  | _, _ => .panicked "index out of bounds"

/-- Final match of the Resolution check on the sorted remainder: exactly two
expressions that contradict each other, otherwise the descriptive error. -/
def resolutionRemainderCheck (remainder : List Expr) : CheckResult :=
  match remainder with
  | [e1, e2] => do_expressions_contradict e1 e2
  | _ => .err (.other ("Difference between premise disjuncts and conclusion disjuncts ("
      ++ prettySet remainder
      ++ ") should be exactly 2 expressions that produce a contradiction."))

/-- Translated from `rules.rs` lines 1790-1818 (`AutomationRelatedRules::check`,
`Resolution` arm): the union of the disjunct sets of the two premises, minus
the disjunct set of the conclusion, sorted, must be exactly two expressions
that contradict each other. -/
def resolutionCheck (p : ProofI) (conclusion : Expr) (deps : List PJRef)
    (_sdeps : List Nat) : CheckResult :=
  match deps.get? 0, deps.get? 1 with
  | some r0, some r1 =>
    match p.lookupExprOrDie r0 with
    | .error e => .err e
    | .ok prem0 =>
      match p.lookupExprOrDie r1 with
      | .error e => .err e
      | .ok prem1 =>
        let premise_disjuncts := (prem0.disjuncts ++ prem1.disjuncts).dedup
        let conclusion_disjuncts := conclusion.disjuncts
        let remainder := (premise_disjuncts.filter
          (fun e => !conclusion_disjuncts.contains e)).insertionSort exprLe
        resolutionRemainderCheck remainder
  | _, _ => .panicked "index out of bounds"

/-- Translated from `rules.rs` lines 660-690 (`PrepositionalInference::check`,
`ImpIntro` arm).  Note the `assert_eq!(sproof.premises().len(), 1)`: a subproof
with any other number of premises makes the check panic. -/
def impIntroCheck (p : ProofI) (conclusion : Expr) (_deps : List PJRef)
    (sdeps : List Nat) : CheckResult :=
  match sdeps.get? 0 with
  | none => .panicked "index out of bounds"
  | some sr =>
    match p.lookupSubproofOrDie sr with
    | .error e => .err e
    | .ok sproof =>
      if sproof.premiseRefs.length ≠ 1 then
        .panicked "assertion failed: sproof.premises().len() == 1"
      else match conclusion with
        | .impl left right =>
          match collectResults (sproof.premiseRefs.map p.lookupPremiseOrDie) with
          | .error e => .err e
          | .ok prem =>
            match prem.get? 0 with
            | none => .panicked "index out of bounds"
            | some prem0 =>
              if left ≠ prem0 then .err (.doesNotOccur left prem0)
              else
                match collectResults (sproof.justLineRefs.map
                    (fun r => p.lookupExprOrDie (Sum.inr r))) with
                | .error e => .err e
                | .ok conc =>
                  if conc.contains right then .ok
                  else .err (.depDoesNotExist right false)
        | _ => .err (.conclusionOfWrongForm Expr.impl_place_holder)

/-- Translated from `rules.rs` lines 727-753 (`PrepositionalInference::check`,
`NotIntro` arm).  Symmetric to `ImpIntro` with the conclusion a negation and
the required subproof line `Contradiction`; it has the same
`assert_eq!(sproof.premises().len(), 1)`. -/
def notIntroCheck (p : ProofI) (conclusion : Expr) (_deps : List PJRef)
    (sdeps : List Nat) : CheckResult :=
  match sdeps.get? 0 with
  | none => .panicked "index out of bounds"
  | some sr =>
    match p.lookupSubproofOrDie sr with
    | .error e => .err e
    | .ok sproof =>
      if sproof.premiseRefs.length ≠ 1 then
        .panicked "assertion failed: sproof.premises().len() == 1"
      else match conclusion with
        | .not operand =>
          match collectResults (sproof.premiseRefs.map p.lookupPremiseOrDie) with
          | .error e => .err e
          | .ok prem =>
            match prem.get? 0 with
            | none => .panicked "index out of bounds"
            | some prem0 =>
              if operand ≠ prem0 then .err (.doesNotOccur operand prem0)
              else
                match collectResults (sproof.justLineRefs.map
                    (fun r => p.lookupExprOrDie (Sum.inr r))) with
                | .error e => .err e
                | .ok conc =>
                  if conc.contains Expr.contra then .ok
                  else .err (.depDoesNotExist Expr.contra false)
        | _ => .err (.conclusionOfWrongForm (Expr.not (.var "_")))

/-- Result of `unifies_wrt_var`: Rust `Result<Expr, ProofCheckError>`, with the
internal `assert_eq!` panics made explicit. -/
inductive ExprCheck
  | ok (e : Expr)
  | err (e : ProofCheckError)
  | panicked (msg : String)
deriving DecidableEq, Repr

/-- Translated from `rules.rs` lines 1023-1068 (`fn unifies_wrt_var`): unify
`e1 = e2` and expect either the empty substitution (then the expressions are
asserted equal and the result is `Variable(var)`) or a single binding of `var`
itself (then the binding target is the result).  Source messages contain
apostrophe contractions, spelled out here. -/
def unifies_wrt_var (e1 e2 : Expr) (var : String) : ExprCheck :=
  match unify [(e1, e2)] with
  | none => .err (.other ("No substitution found between " ++ e1.display ++ " and "
      ++ e2.display ++ "."))
  | some substitutions =>
    match substitutions with
    | [] =>
      if e1 = e2 then .ok (.var var)
      else .panicked "assertion failed: e1 == e2"
    | [(v, t)] =>
      if v = var then
        if subst e1 v t = e2 then .ok t
        else .panicked "assertion failed: subst(e1, v, t) == e2"
      else .err (.other ("Attempted to substitute for a variable other than the binder: " ++ v))
    | _ => .err (.other "More than one variable was substituted.")

/-- Translated from `rules.rs` lines 1069-1083
(`fn generalizable_variable_counterexample`): an expression reachable from
`line` but outside the subproof in which `var` occurs free, if any. -/
def generalizable_variable_counterexample (sproof : SubproofI) (line : PJRef)
    (var : String) : Option Expr :=
  let contained := sproof.containedJustifications
  let reachable := sproof.transitiveDeps line
  let outside := reachable.filter (fun r => !contained.contains r)
  (outside.filterMap sproof.lookupExpr).find? (fun e => (free_vars e).contains var)

/-- Loop of `ExistsElim` over the subproof lines: at the first line equal to
the conclusion, run the skolem-escape checks; when no line matches, fail. -/
def existsElimLoop (sproof : SubproofI) (conclusion : Expr) (skolemname : String) :
    List (PJRef × Expr) → CheckResult
  | [] => .err (.other ("Could not find a subproof line equal to the conclusion ("
      ++ conclusion.display ++ ")."))
  | (r, e) :: rest =>
    if e = conclusion then
      match generalizable_variable_counterexample sproof r skolemname with
      | some dangling => .err (.other ("The skolem constant " ++ skolemname
          ++ " occurs in dependency " ++ dangling.display ++ " that is outside the subproof."))
      | none =>
        if (free_vars conclusion).contains skolemname then
          .err (.other ("The skolem constant " ++ skolemname ++ " escapes to the conclusion "
            ++ conclusion.display ++ "."))
        else .ok
    else existsElimLoop sproof conclusion skolemname rest

/-- Translated from `rules.rs` lines 1168-1246 (`PredicateInference::check`,
`ExistsElim` arm).  In particular, a cited subproof whose premise count is not
1 yields the error value `Other("Subproof has {n} premises, expected 1.")` —
an error, not a panic. -/
def existsElimCheck (p : ProofI) (conclusion : Expr) (deps : List PJRef)
    (sdeps : List Nat) : CheckResult :=
  match deps.get? 0 with
  | none => .panicked "index out of bounds"
  | some dr =>
  match p.lookupExprOrDie dr with
  | .error e => .err e
  | .ok prem =>
  match sdeps.get? 0 with
  | none => .panicked "index out of bounds"
  | some sr =>
  match p.lookupSubproofOrDie sr with
  | .error e => .err e
  | .ok sproof =>
    match prem with
    | .quant .existential name body =>
      let subprems := sproof.premiseRefs
      if subprems.length ≠ 1 then
        .err (.other ("Subproof has " ++ toString subprems.length ++ " premises, expected 1."))
      else
        match subprems.get? 0 with
        | none => .panicked "index out of bounds"
        | some spr =>
        match p.lookupPremiseOrDie spr with
        | .error e => .err e
        | .ok subprem =>
          match unifies_wrt_var body subprem name with
          | .panicked m => .panicked m
          | .ok (.var skolemname) =>
            match collectResults (sproof.exprRefs.map (fun r =>
                (sproof.lookupExprOrDie r).map (fun e => (r, e)))) with
            | .error e => .err e
            | .ok pairs => existsElimLoop sproof conclusion skolemname pairs
          | _ => .err (.other ("Premise " ++ subprem.display
              ++ " does not unify with the body of dependency "
              ++ (Expr.quant .existential name body).display))
    | _ => .err (.depOfWrongForm prem (Expr.quant_placeholder .existential))

/-- Translated from `rules.rs` lines 1788-1789 (`AutomationRelatedRules::check`,
`AsymmetricTautology` arm): the body is `unimplemented!()`, which panics with
the message "not implemented". -/
def asymmetricTautologyCheck (_p : ProofI) (_conclusion : Expr) (_deps : List PJRef)
    (_sdeps : List Nat) : CheckResult :=
  .panicked "not implemented"

/-- Translated from `rules.rs` lines 1966-1974 (`impl RuleT for EmptyRule`,
`fn check`): always `Err(Other("No rule selected"))`. -/
def emptyRuleCheck (_p : ProofI) (_conclusion : Expr) (_deps : List PJRef)
    (_sdeps : List Nat) : CheckResult :=
  .err (.other "No rule selected")

/-- Translated from `rules.rs` (`pub enum PrepositionalInference`). -/
inductive PrepositionalInference
  | reit | andIntro | andElim | orIntro | orElim
  | impIntro | impElim | notIntro | notElim
  | contradictionIntro | contradictionElim
  | biconditionalIntro | biconditionalElim
  | equivalenceIntro | equivalenceElim
deriving DecidableEq, Repr

/-- Translated from `rules.rs` (`pub enum PredicateInference`). -/
inductive PredicateInference
  | forallIntro | forallElim | existsIntro | existsElim
deriving DecidableEq, Repr

/-- Translated from `rules.rs` (`pub enum BooleanEquivalence`). -/
inductive BooleanEquivalence
  | deMorgan | association | commutation | idempotence | distribution
  | doubleNegation | complement | identity | annihilation | inverse
  | absorption | reduction | adjacency
deriving DecidableEq, Repr

/-- Translated from `rules.rs` (`pub enum ConditionalEquivalence`). -/
inductive ConditionalEquivalence
  | complement | identity | annihilation | implication | biImplication
  | contraposition | currying | conditionalDistribution | conditionalReduction
  | knightsAndKnaves | conditionalIdempotence | biconditionalNegation
  | biconditionalSubstitution
deriving DecidableEq, Repr

/-- Translated from `rules.rs` (`pub enum RedundantPrepositionalInference`). -/
inductive RedundantPrepositionalInference
  | modusTollens | hypotheticalSyllogism | excludedMiddle | constructiveDilemma
deriving DecidableEq, Repr

/-- Translated from `rules.rs` (`pub enum AutomationRelatedRules`). -/
inductive AutomationRelatedRules
  | asymmetricTautology | resolution | tautologicalConsequence
deriving DecidableEq, Repr

/-- Translated from `rules.rs` (`pub enum QuantifierEquivalence`). -/
inductive QuantifierEquivalence
  | quantifierNegation | nullQuantification | replacingBoundVars
  | swappingQuantifiers | aristoteleanSquare | quantifierDistribution
  | prenexLaws
deriving DecidableEq, Repr

/-- Translated from `rules.rs` (`pub type Rule = SharedChecks<Coprod!(...)>`):
the coproduct of the seven rule families plus `EmptyRule`, flattened into a
single sum. -/
inductive Rule
  | prep (r : PrepositionalInference)
  | predicate (r : PredicateInference)
  | boolean (r : BooleanEquivalence)
  | conditional (r : ConditionalEquivalence)
  | redundant (r : RedundantPrepositionalInference)
  | automation (r : AutomationRelatedRules)
  | quantifier (r : QuantifierEquivalence)
  | emptyRule
deriving DecidableEq, Repr

/-- Translated from `rules.rs` (`pub enum RuleClassification`). -/
inductive RuleClassification
  | introduction | elimination | booleanEquivalence | conditionalEquivalence
  | quantifierEquivalence | miscInference
deriving DecidableEq, Repr

/-- Translated from `PrepositionalInference::num_deps` in `rules.rs`. -/
def PrepositionalInference.num_deps : PrepositionalInference → Option Nat
  | .reit | .andElim | .orIntro | .orElim | .notElim | .contradictionElim => some 1
  | .contradictionIntro | .impElim | .biconditionalElim | .equivalenceElim => some 2
  | .notIntro | .impIntro => some 0
  | .andIntro | .biconditionalIntro | .equivalenceIntro => none

/-- Translated from `PrepositionalInference::num_subdeps` in `rules.rs`. -/
def PrepositionalInference.num_subdeps : PrepositionalInference → Option Nat
  | .notIntro | .impIntro => some 1
  | .reit | .andElim | .orIntro | .notElim | .contradictionElim | .contradictionIntro
  | .impElim | .andIntro | .biconditionalElim | .equivalenceElim => some 0
  | .orElim | .biconditionalIntro | .equivalenceIntro => none

/-- Translated from `PredicateInference::num_deps` in `rules.rs`. -/
def PredicateInference.num_deps : PredicateInference → Option Nat
  | .existsIntro | .existsElim | .forallElim => some 1
  | .forallIntro => some 0

/-- Translated from `PredicateInference::num_subdeps` in `rules.rs`. -/
def PredicateInference.num_subdeps : PredicateInference → Option Nat
  | .existsIntro | .forallElim => some 0
  | .forallIntro | .existsElim => some 1

/-- Translated from `RedundantPrepositionalInference::num_deps` in `rules.rs`. -/
def RedundantPrepositionalInference.num_deps : RedundantPrepositionalInference → Option Nat
  | .modusTollens | .hypotheticalSyllogism => some 2
  | .excludedMiddle => some 0
  | .constructiveDilemma => some 3

/-- Translated from `AutomationRelatedRules::num_deps` in `rules.rs`. -/
def AutomationRelatedRules.num_deps : AutomationRelatedRules → Option Nat
  | .asymmetricTautology => none
  | .resolution => some 2
  | .tautologicalConsequence => none

/-- Translated from the per-family `num_deps` implementations in `rules.rs`.
Every equivalence family answers `Some(1)`; `EmptyRule` answers `None`. -/
def Rule.num_deps : Rule → Option Nat
  | .prep r => r.num_deps
  | .predicate r => r.num_deps
  | .boolean _ => some 1
  | .conditional _ => some 1
  | .redundant r => r.num_deps
  | .automation r => r.num_deps
  | .quantifier _ => some 1
  | .emptyRule => none

/-- Translated from the per-family `num_subdeps` implementations in `rules.rs`.
Every equivalence family answers `Some(0)`, as do the redundant and automation
families; `EmptyRule` answers `None`. -/
def Rule.num_subdeps : Rule → Option Nat
  | .prep r => r.num_subdeps
  | .predicate r => r.num_subdeps
  | .boolean _ => some 0
  | .conditional _ => some 0
  | .redundant _ => some 0
  | .automation _ => some 0
  | .quantifier _ => some 0
  | .emptyRule => none

/-- Translated from `PrepositionalInference::get_classifications` in `rules.rs`. -/
def PrepositionalInference.get_classifications :
    PrepositionalInference → List RuleClassification
  | .reit => [.miscInference]
  | .andIntro | .orIntro | .impIntro | .notIntro | .contradictionIntro
  | .biconditionalIntro | .equivalenceIntro => [.introduction]
  | .andElim | .orElim | .impElim | .notElim | .contradictionElim
  | .biconditionalElim | .equivalenceElim => [.elimination]

/-- Translated from `PredicateInference::get_classifications` in `rules.rs`. -/
def PredicateInference.get_classifications : PredicateInference → List RuleClassification
  | .forallIntro | .existsIntro => [.introduction]
  | .forallElim | .existsElim => [.elimination]

/-- Translated from the per-family `get_classifications` implementations in
`rules.rs`; `EmptyRule` answers the empty set (`HashSet::new()`). -/
def Rule.get_classifications : Rule → List RuleClassification
  | .prep r => r.get_classifications
  | .predicate r => r.get_classifications
  | .boolean _ => [.booleanEquivalence]
  | .conditional _ => [.conditionalEquivalence]
  | .redundant _ => [.miscInference]
  | .automation _ => [.miscInference]
  | .quantifier _ => [.quantifierEquivalence]
  | .emptyRule => []

/- Carrier namespace translated from the `declare_rules!` block of `rules.rs`
(`pub mod RuleM`): one named constant per rule, the two catalog lists, and the
serialization maps. -/
namespace RuleM

def Reit : Rule := .prep .reit

def AndIntro : Rule := .prep .andIntro

def AndElim : Rule := .prep .andElim

def OrIntro : Rule := .prep .orIntro

def OrElim : Rule := .prep .orElim

def ImpIntro : Rule := .prep .impIntro

def ImpElim : Rule := .prep .impElim

def NotIntro : Rule := .prep .notIntro

def NotElim : Rule := .prep .notElim

def ContradictionIntro : Rule := .prep .contradictionIntro

def ContradictionElim : Rule := .prep .contradictionElim

def BiconditionalIntro : Rule := .prep .biconditionalIntro

def BiconditionalElim : Rule := .prep .biconditionalElim

def EquivalenceIntro : Rule := .prep .equivalenceIntro

def EquivalenceElim : Rule := .prep .equivalenceElim

def ForallIntro : Rule := .predicate .forallIntro

def ForallElim : Rule := .predicate .forallElim

def ExistsIntro : Rule := .predicate .existsIntro

def ExistsElim : Rule := .predicate .existsElim

def ModusTollens : Rule := .redundant .modusTollens

def HypotheticalSyllogism : Rule := .redundant .hypotheticalSyllogism

def ExcludedMiddle : Rule := .redundant .excludedMiddle

def ConstructiveDilemma : Rule := .redundant .constructiveDilemma

def Association : Rule := .boolean .association

def Commutation : Rule := .boolean .commutation

def Idempotence : Rule := .boolean .idempotence

def DeMorgan : Rule := .boolean .deMorgan

def Distribution : Rule := .boolean .distribution

def DoubleNegation : Rule := .boolean .doubleNegation

def Complement : Rule := .boolean .complement

def Identity : Rule := .boolean .identity

def Annihilation : Rule := .boolean .annihilation

def Inverse : Rule := .boolean .inverse

def Absorption : Rule := .boolean .absorption

def Reduction : Rule := .boolean .reduction

def Adjacency : Rule := .boolean .adjacency

def CondComplement : Rule := .conditional .complement

def CondIdentity : Rule := .conditional .identity

def CondAnnihilation : Rule := .conditional .annihilation

def Implication : Rule := .conditional .implication

def BiImplication : Rule := .conditional .biImplication

def Contraposition : Rule := .conditional .contraposition

def Currying : Rule := .conditional .currying

def ConditionalDistribution : Rule := .conditional .conditionalDistribution

def ConditionalReduction : Rule := .conditional .conditionalReduction

def KnightsAndKnaves : Rule := .conditional .knightsAndKnaves

def ConditionalIdempotence : Rule := .conditional .conditionalIdempotence

def BiconditionalNegation : Rule := .conditional .biconditionalNegation

def BiconditionalSubstitution : Rule := .conditional .biconditionalSubstitution

def AsymmetricTautology : Rule := .automation .asymmetricTautology

def Resolution : Rule := .automation .resolution

def TautologicalConsequence : Rule := .automation .tautologicalConsequence

def QuantifierNegation : Rule := .quantifier .quantifierNegation

def NullQuantification : Rule := .quantifier .nullQuantification

def ReplacingBoundVars : Rule := .quantifier .replacingBoundVars

def SwappingQuantifiers : Rule := .quantifier .swappingQuantifiers

def AristoteleanSquare : Rule := .quantifier .aristoteleanSquare

def QuantifierDistribution : Rule := .quantifier .quantifierDistribution

def PrenexLaws : Rule := .quantifier .prenexLaws

def EmptyRule : Rule := .emptyRule

/-- Translated from `RuleM::ALL_SERIALIZED_NAMES`, in declaration order. -/
def ALL_SERIALIZED_NAMES : List String := [
  "REITERATION",
  "CONJUNCTION",
  "SIMPLIFICATION",
  "ADDITION",
  "DISJUNCTIVE_SYLLOGISM",
  "CONDITIONAL_PROOF",
  "MODUS_PONENS",
  "PROOF_BY_CONTRADICTION",
  "DOUBLENEGATION",
  "CONTRADICTION",
  "PRINCIPLE_OF_EXPLOSION",
  "BICONDITIONAL_INTRO",
  "BICONDITIONAL_ELIM",
  "EQUIVALENCE_INTRO",
  "EQUIVALENCE_ELIM",
  "UNIVERSAL_GENERALIZATION",
  "UNIVERSAL_INSTANTIATION",
  "EXISTENTIAL_GENERALIZATION",
  "EXISTENTIAL_INSTANTIATION",
  "MODUS_TOLLENS",
  "HYPOTHETICAL_SYLLOGISM",
  "EXCLUDED_MIDDLE",
  "CONSTRUCTIVE_DILEMMA",
  "ASSOCIATION",
  "COMMUTATION",
  "IDEMPOTENCE",
  "DE_MORGAN",
  "DISTRIBUTION",
  "DOUBLENEGATION_EQUIV",
  "COMPLEMENT",
  "IDENTITY",
  "ANNIHILATION",
  "INVERSE",
  "ABSORPTION",
  "REDUCTION",
  "ADJACENCY",
  "CONDITIONAL_COMPLEMENT",
  "CONDITIONAL_IDENTITY",
  "CONDITIONAL_ANNIHILATION",
  "IMPLICATION",
  "BI_IMPLICATION",
  "CONTRAPOSITION",
  "CURRYING",
  "CONDITIONAL_DISTRIBUTION",
  "CONDITIONAL_REDUCTION",
  "KNIGHTS_AND_KNAVES",
  "CONDITIONAL_IDEMPOTENCE",
  "BICONDITIONAL_NEGATION",
  "BICONDITIONAL_SUBSTITUTION",
  "ASYMMETRIC_TAUTOLOGY",
  "RESOLUTION",
  "TAUTOLOGICAL_CONSEQUENCE",
  "QUANTIFIER_NEGATION",
  "NULL_QUANTIFICATION",
  "REPLACING_BOUND_VARS",
  "SWAPPING_QUANTIFIERS",
  "ARISTOTELEAN_SQUARE",
  "QUANTIFIER_DISTRIBUTION",
  "PRENEX_LAWS",
  "EMPTY_RULE"]

/-- Translated from `RuleM::ALL_RULES`, in declaration order. -/
def ALL_RULES : List Rule := [
  Reit,
  AndIntro,
  AndElim,
  OrIntro,
  OrElim,
  ImpIntro,
  ImpElim,
  NotIntro,
  NotElim,
  ContradictionIntro,
  ContradictionElim,
  BiconditionalIntro,
  BiconditionalElim,
  EquivalenceIntro,
  EquivalenceElim,
  ForallIntro,
  ForallElim,
  ExistsIntro,
  ExistsElim,
  ModusTollens,
  HypotheticalSyllogism,
  ExcludedMiddle,
  ConstructiveDilemma,
  Association,
  Commutation,
  Idempotence,
  DeMorgan,
  Distribution,
  DoubleNegation,
  Complement,
  Identity,
  Annihilation,
  Inverse,
  Absorption,
  Reduction,
  Adjacency,
  CondComplement,
  CondIdentity,
  CondAnnihilation,
  Implication,
  BiImplication,
  Contraposition,
  Currying,
  ConditionalDistribution,
  ConditionalReduction,
  KnightsAndKnaves,
  ConditionalIdempotence,
  BiconditionalNegation,
  BiconditionalSubstitution,
  AsymmetricTautology,
  Resolution,
  TautologicalConsequence,
  QuantifierNegation,
  NullQuantification,
  ReplacingBoundVars,
  SwappingQuantifiers,
  AristoteleanSquare,
  QuantifierDistribution,
  PrenexLaws,
  EmptyRule]

/-- Translated from `RuleM::to_serialized_name`: map each rule to its stable
upper-snake-case identifier. -/
def to_serialized_name : Rule → String
  | .prep .reit => "REITERATION"
  | .prep .andIntro => "CONJUNCTION"
  | .prep .andElim => "SIMPLIFICATION"
  | .prep .orIntro => "ADDITION"
  | .prep .orElim => "DISJUNCTIVE_SYLLOGISM"
  | .prep .impIntro => "CONDITIONAL_PROOF"
  | .prep .impElim => "MODUS_PONENS"
  | .prep .notIntro => "PROOF_BY_CONTRADICTION"
  | .prep .notElim => "DOUBLENEGATION"
  | .prep .contradictionIntro => "CONTRADICTION"
  | .prep .contradictionElim => "PRINCIPLE_OF_EXPLOSION"
  | .prep .biconditionalIntro => "BICONDITIONAL_INTRO"
  | .prep .biconditionalElim => "BICONDITIONAL_ELIM"
  | .prep .equivalenceIntro => "EQUIVALENCE_INTRO"
  | .prep .equivalenceElim => "EQUIVALENCE_ELIM"
  | .predicate .forallIntro => "UNIVERSAL_GENERALIZATION"
  | .predicate .forallElim => "UNIVERSAL_INSTANTIATION"
  | .predicate .existsIntro => "EXISTENTIAL_GENERALIZATION"
  | .predicate .existsElim => "EXISTENTIAL_INSTANTIATION"
  | .redundant .modusTollens => "MODUS_TOLLENS"
  | .redundant .hypotheticalSyllogism => "HYPOTHETICAL_SYLLOGISM"
  | .redundant .excludedMiddle => "EXCLUDED_MIDDLE"
  | .redundant .constructiveDilemma => "CONSTRUCTIVE_DILEMMA"
  | .boolean .association => "ASSOCIATION"
  | .boolean .commutation => "COMMUTATION"
  | .boolean .idempotence => "IDEMPOTENCE"
  | .boolean .deMorgan => "DE_MORGAN"
  | .boolean .distribution => "DISTRIBUTION"
  | .boolean .doubleNegation => "DOUBLENEGATION_EQUIV"
  | .boolean .complement => "COMPLEMENT"
  | .boolean .identity => "IDENTITY"
  | .boolean .annihilation => "ANNIHILATION"
  | .boolean .inverse => "INVERSE"
  | .boolean .absorption => "ABSORPTION"
  | .boolean .reduction => "REDUCTION"
  | .boolean .adjacency => "ADJACENCY"
  | .conditional .complement => "CONDITIONAL_COMPLEMENT"
  | .conditional .identity => "CONDITIONAL_IDENTITY"
  | .conditional .annihilation => "CONDITIONAL_ANNIHILATION"
  | .conditional .implication => "IMPLICATION"
  | .conditional .biImplication => "BI_IMPLICATION"
  | .conditional .contraposition => "CONTRAPOSITION"
  | .conditional .currying => "CURRYING"
  | .conditional .conditionalDistribution => "CONDITIONAL_DISTRIBUTION"
  | .conditional .conditionalReduction => "CONDITIONAL_REDUCTION"
  | .conditional .knightsAndKnaves => "KNIGHTS_AND_KNAVES"
  | .conditional .conditionalIdempotence => "CONDITIONAL_IDEMPOTENCE"
  | .conditional .biconditionalNegation => "BICONDITIONAL_NEGATION"
  | .conditional .biconditionalSubstitution => "BICONDITIONAL_SUBSTITUTION"
  | .automation .asymmetricTautology => "ASYMMETRIC_TAUTOLOGY"
  | .automation .resolution => "RESOLUTION"
  | .automation .tautologicalConsequence => "TAUTOLOGICAL_CONSEQUENCE"
  | .quantifier .quantifierNegation => "QUANTIFIER_NEGATION"
  | .quantifier .nullQuantification => "NULL_QUANTIFICATION"
  | .quantifier .replacingBoundVars => "REPLACING_BOUND_VARS"
  | .quantifier .swappingQuantifiers => "SWAPPING_QUANTIFIERS"
  | .quantifier .aristoteleanSquare => "ARISTOTELEAN_SQUARE"
  | .quantifier .quantifierDistribution => "QUANTIFIER_DISTRIBUTION"
  | .quantifier .prenexLaws => "PRENEX_LAWS"
  | .emptyRule => "EMPTY_RULE"

/-- Translated from `RuleM::from_serialized_name`: parse a stable identifier
back to a rule; unknown names give `none`. -/
def from_serialized_name (name : String) : Option Rule :=
  match name with
  | "REITERATION" => some Reit
  | "CONJUNCTION" => some AndIntro
  | "SIMPLIFICATION" => some AndElim
  | "ADDITION" => some OrIntro
  | "DISJUNCTIVE_SYLLOGISM" => some OrElim
  | "CONDITIONAL_PROOF" => some ImpIntro
  | "MODUS_PONENS" => some ImpElim
  | "PROOF_BY_CONTRADICTION" => some NotIntro
  | "DOUBLENEGATION" => some NotElim
  | "CONTRADICTION" => some ContradictionIntro
  | "PRINCIPLE_OF_EXPLOSION" => some ContradictionElim
  | "BICONDITIONAL_INTRO" => some BiconditionalIntro
  | "BICONDITIONAL_ELIM" => some BiconditionalElim
  | "EQUIVALENCE_INTRO" => some EquivalenceIntro
  | "EQUIVALENCE_ELIM" => some EquivalenceElim
  | "UNIVERSAL_GENERALIZATION" => some ForallIntro
  | "UNIVERSAL_INSTANTIATION" => some ForallElim
  | "EXISTENTIAL_GENERALIZATION" => some ExistsIntro
  | "EXISTENTIAL_INSTANTIATION" => some ExistsElim
  | "MODUS_TOLLENS" => some ModusTollens
  | "HYPOTHETICAL_SYLLOGISM" => some HypotheticalSyllogism
  | "EXCLUDED_MIDDLE" => some ExcludedMiddle
  | "CONSTRUCTIVE_DILEMMA" => some ConstructiveDilemma
  | "ASSOCIATION" => some Association
  | "COMMUTATION" => some Commutation
  | "IDEMPOTENCE" => some Idempotence
  | "DE_MORGAN" => some DeMorgan
  | "DISTRIBUTION" => some Distribution
  | "DOUBLENEGATION_EQUIV" => some DoubleNegation
  | "COMPLEMENT" => some Complement
  | "IDENTITY" => some Identity
  | "ANNIHILATION" => some Annihilation
  | "INVERSE" => some Inverse
  | "ABSORPTION" => some Absorption
  | "REDUCTION" => some Reduction
  | "ADJACENCY" => some Adjacency
  | "CONDITIONAL_COMPLEMENT" => some CondComplement
  | "CONDITIONAL_IDENTITY" => some CondIdentity
  | "CONDITIONAL_ANNIHILATION" => some CondAnnihilation
  | "IMPLICATION" => some Implication
  | "BI_IMPLICATION" => some BiImplication
  | "CONTRAPOSITION" => some Contraposition
  | "CURRYING" => some Currying
  | "CONDITIONAL_DISTRIBUTION" => some ConditionalDistribution
  | "CONDITIONAL_REDUCTION" => some ConditionalReduction
  | "KNIGHTS_AND_KNAVES" => some KnightsAndKnaves
  | "CONDITIONAL_IDEMPOTENCE" => some ConditionalIdempotence
  | "BICONDITIONAL_NEGATION" => some BiconditionalNegation
  | "BICONDITIONAL_SUBSTITUTION" => some BiconditionalSubstitution
  | "ASYMMETRIC_TAUTOLOGY" => some AsymmetricTautology
  | "RESOLUTION" => some Resolution
  | "TAUTOLOGICAL_CONSEQUENCE" => some TautologicalConsequence
  | "QUANTIFIER_NEGATION" => some QuantifierNegation
  | "NULL_QUANTIFICATION" => some NullQuantification
  | "REPLACING_BOUND_VARS" => some ReplacingBoundVars
  | "SWAPPING_QUANTIFIERS" => some SwappingQuantifiers
  | "ARISTOTELEAN_SQUARE" => some AristoteleanSquare
  | "QUANTIFIER_DISTRIBUTION" => some QuantifierDistribution
  | "PRENEX_LAWS" => some PrenexLaws
  | "EMPTY_RULE" => some EmptyRule
  | _ => none

end RuleM

example : RuleM.from_serialized_name (RuleM.to_serialized_name RuleM.DeMorgan) = some RuleM.DeMorgan := by decide

/-- Claim C1: per the spec, a definite per-permutation error from the
`any_order`/`either_order` dispatch should be surfaced (so ModusTollens on
`P -> Q`, `~Q` with conclusion `P` should return `DoesNotOccur(~P, P)`).  The
code instead loses all definite errors — `Iterator::any` exhausts the results
iterator, so the error-collection branch always sees an empty iterator — and
returns the fallthrough shape error `DepDoesNotExist(_ -> _, true)`.  This
theorem evaluates the full ModusTollens check at exactly that failing input. -/
theorem c1_modus_tollens_definite_error_lost :
    SharedChecks.check ⟨Rule.num_deps RuleM.ModusTollens, Rule.num_subdeps RuleM.ModusTollens,
        modusTollensCheck⟩
      ⟨fun r => match r with
        | .inl 0 => some (.impl (.var "P") (.var "Q"))
        | .inl 1 => some (.not (.var "Q"))
        | _ => none,
       fun _ => none, fun _ => none⟩
      (.var "P") [Sum.inl 0, Sum.inl 1] []
      = .err (.depDoesNotExist Expr.impl_place_holder true) := by decide

/-- Claim C2: for every rule whose `num_deps()` is `Some(n)`, a dependency list
of the wrong length is rejected with `IncorrectDepCount(deps, n)` regardless of
the conclusion, the dependency contents, and the rule body (quantified over an
arbitrary body, so the body is provably not consulted); symmetrically, when
`num_subdeps()` is `Some(m)` and the direct-dependency count matches, a
subproof-dependency list of the wrong length is rejected with
`IncorrectSubDepCount(sdeps, m)`. -/
theorem c2_arity_gating (r : Rule)
    (body : ProofI → Expr → List PJRef → List Nat → CheckResult)
    (p : ProofI) (expr : Expr) (deps : List PJRef) (sdeps : List Nat) :
    (∀ n, Rule.num_deps r = some n → deps.length ≠ n →
      SharedChecks.check ⟨Rule.num_deps r, Rule.num_subdeps r, body⟩ p expr deps sdeps
        = .err (.incorrectDepCount deps n)) ∧
    (∀ m, Rule.num_subdeps r = some m →
      (∀ n, Rule.num_deps r = some n → deps.length = n) →
      sdeps.length ≠ m →
      SharedChecks.check ⟨Rule.num_deps r, Rule.num_subdeps r, body⟩ p expr deps sdeps
        = .err (.incorrectSubDepCount sdeps m)) := by
  constructor
  · intro n hn hlen
    simp [SharedChecks.check, hn, hlen]
  · intro m hm hdeps hslen
    cases hnd : Rule.num_deps r with
    | none => simp [SharedChecks.check, SharedChecks.checkSub, hnd, hm, hslen]
    | some n =>
      simp [SharedChecks.check, SharedChecks.checkSub, hnd, hm, hslen, hdeps n hnd]

/-- Witness for C2: ModusTollens (`num_deps = Some 2`) with zero dependencies
is rejected with `IncorrectDepCount([], 2)`, and ImpIntro
(`num_subdeps = Some 1`, `num_deps = Some 0`) with zero subproof dependencies
is rejected with `IncorrectSubDepCount([], 1)`. -/
theorem c2_arity_gating_witness :
    (SharedChecks.check ⟨Rule.num_deps RuleM.ModusTollens, Rule.num_subdeps RuleM.ModusTollens,
        modusTollensCheck⟩ ⟨fun _ => none, fun _ => none, fun _ => none⟩ (.var "A") [] []
      = .err (.incorrectDepCount [] 2)) ∧
    (SharedChecks.check ⟨Rule.num_deps RuleM.ImpIntro, Rule.num_subdeps RuleM.ImpIntro,
        impIntroCheck⟩ ⟨fun _ => none, fun _ => none, fun _ => none⟩ (.var "A") [] []
      = .err (.incorrectSubDepCount [] 1)) :=
  ⟨(c2_arity_gating RuleM.ModusTollens modusTollensCheck
      ⟨fun _ => none, fun _ => none, fun _ => none⟩ (.var "A") [] []).1 2 (by decide) (by decide),
   (c2_arity_gating RuleM.ImpIntro impIntroCheck
      ⟨fun _ => none, fun _ => none, fun _ => none⟩ (.var "A") [] []).2 1 (by decide)
      (fun n hn => by have h : (0 : Nat) = n := Option.some.inj hn; simpa using h) (by decide)⟩

/-- Claim C3: serialization round-trip — for every rule in the catalog list
`ALL_RULES`, `from_serialized_name (to_serialized_name r) = some r`, and
`ALL_RULES` and `ALL_SERIALIZED_NAMES` have the same length. -/
theorem c3_serialization_round_trip :
    (RuleM.ALL_RULES.all fun r =>
      decide (RuleM.from_serialized_name (RuleM.to_serialized_name r) = some r)) = true ∧
    RuleM.ALL_RULES.length = RuleM.ALL_SERIALIZED_NAMES.length := by
  constructor
  · decide
  · decide

/-- Claim C4 (counterexample): AsymmetricTautology does not return the error
value `Other("not implemented")` — at a concrete input passing the shared
pre-checks its body runs `unimplemented!()`, which panics. -/
theorem c4_asymmetric_tautology_counterexample :
    SharedChecks.check ⟨Rule.num_deps RuleM.AsymmetricTautology,
        Rule.num_subdeps RuleM.AsymmetricTautology, asymmetricTautologyCheck⟩
      ⟨fun _ => none, fun _ => none, fun _ => none⟩ (.var "A") [] []
      ≠ .err (.other "not implemented") := by decide

/-- Claim C4 (amended): for every input that passes the shared arity pre-checks
(`num_subdeps = Some 0`, so zero subproof dependencies; `num_deps = None`, so
any dependency list), the AsymmetricTautology check panics via
`unimplemented!()` (message "not implemented") instead of returning a
`ProofCheckError` value. -/
theorem c4_asymmetric_tautology_panics (p : ProofI) (conclusion : Expr) (deps : List PJRef) :
    SharedChecks.check ⟨Rule.num_deps RuleM.AsymmetricTautology,
        Rule.num_subdeps RuleM.AsymmetricTautology, asymmetricTautologyCheck⟩
      p conclusion deps []
      = .panicked "not implemented" := by
  simp [SharedChecks.check, SharedChecks.checkSub, Rule.num_deps, Rule.num_subdeps,
    AutomationRelatedRules.num_deps, RuleM.AsymmetricTautology, asymmetricTautologyCheck]

/-- Claim C5: for all inputs, EmptyRule's check returns
`Other("No rule selected")`; its `num_deps` and `num_subdeps` are both `None`
(so the shared pre-checks never reject on arity), and its classification set is
empty. -/
theorem c5_empty_rule (p : ProofI) (conclusion : Expr) (deps : List PJRef) (sdeps : List Nat) :
    SharedChecks.check ⟨Rule.num_deps RuleM.EmptyRule, Rule.num_subdeps RuleM.EmptyRule,
        emptyRuleCheck⟩ p conclusion deps sdeps = .err (.other "No rule selected") ∧
    Rule.num_deps RuleM.EmptyRule = none ∧
    Rule.num_subdeps RuleM.EmptyRule = none ∧
    Rule.get_classifications RuleM.EmptyRule = [] := by
  refine ⟨?_, rfl, rfl, rfl⟩
  simp [SharedChecks.check, SharedChecks.checkSub, Rule.num_deps, Rule.num_subdeps,
    RuleM.EmptyRule, emptyRuleCheck]

/-- Claim C10: AndElim with a dependency resolving to `And(e1, ..., en)`
succeeds exactly when the conclusion is structurally equal to some operand
`ei`; any other conclusion — in particular a conjunction of a strict subset of
the operands — is rejected with `DoesNotOccur(conclusion, dependency)`. -/
theorem c10_and_elim (p : ProofI) (conclusion : Expr) (r0 : PJRef) (exprs : List Expr)
    (h0 : p.lookupExpr r0 = some (.assoc .and exprs)) :
    (SharedChecks.check ⟨Rule.num_deps RuleM.AndElim, Rule.num_subdeps RuleM.AndElim,
        andElimCheck⟩ p conclusion [r0] [] = .ok ↔ conclusion ∈ exprs) ∧
    (conclusion ∉ exprs →
      SharedChecks.check ⟨Rule.num_deps RuleM.AndElim, Rule.num_subdeps RuleM.AndElim,
        andElimCheck⟩ p conclusion [r0] [] = .err (.doesNotOccur conclusion (.assoc .and exprs))) := by
  have hrun : SharedChecks.check ⟨Rule.num_deps RuleM.AndElim, Rule.num_subdeps RuleM.AndElim,
      andElimCheck⟩ p conclusion [r0] [] =
      (if conclusion ∈ exprs then .ok
       else .err (.doesNotOccur conclusion (.assoc .and exprs))) := by
    simp only [SharedChecks.check, SharedChecks.checkSub, Rule.num_deps, Rule.num_subdeps,
      PrepositionalInference.num_deps, PrepositionalInference.num_subdeps, RuleM.AndElim]
    simp [andElimCheck, ProofI.lookupExprOrDie, h0, List.contains]
  rw [hrun]
  constructor
  · by_cases hc : conclusion ∈ exprs <;> simp [hc]
  · intro hc; simp [hc]

/-- Witness for C10: from the premise `A & B & C`, concluding the operand `B`
succeeds, while concluding the strict-subset conjunction `A & B` is rejected
with `DoesNotOccur(A & B, A & B & C)`. -/
theorem c10_and_elim_witness :
    (SharedChecks.check ⟨Rule.num_deps RuleM.AndElim, Rule.num_subdeps RuleM.AndElim,
        andElimCheck⟩
      ⟨fun r => match r with
        | .inl 0 => some (.assoc .and [.var "A", .var "B", .var "C"])
        | _ => none, fun _ => none, fun _ => none⟩
      (.var "B") [Sum.inl 0] [] = .ok) ∧
    (SharedChecks.check ⟨Rule.num_deps RuleM.AndElim, Rule.num_subdeps RuleM.AndElim,
        andElimCheck⟩
      ⟨fun r => match r with
        | .inl 0 => some (.assoc .and [.var "A", .var "B", .var "C"])
        | _ => none, fun _ => none, fun _ => none⟩
      (.assoc .and [.var "A", .var "B"]) [Sum.inl 0] []
      = .err (.doesNotOccur (.assoc .and [.var "A", .var "B"])
          (.assoc .and [.var "A", .var "B", .var "C"]))) :=
  ⟨(c10_and_elim ⟨fun r => match r with
        | .inl 0 => some (.assoc .and [.var "A", .var "B", .var "C"])
        | _ => none, fun _ => none, fun _ => none⟩
      (.var "B") (Sum.inl 0) [.var "A", .var "B", .var "C"] rfl).1.mpr (by decide),
   (c10_and_elim ⟨fun r => match r with
        | .inl 0 => some (.assoc .and [.var "A", .var "B", .var "C"])
        | _ => none, fun _ => none, fun _ => none⟩
      (.assoc .and [.var "A", .var "B"]) (Sum.inl 0) [.var "A", .var "B", .var "C"] rfl).2
      (by decide)⟩

/-- Claim C6: ExcludedMiddle takes 0 direct dependencies and succeeds exactly
when the conclusion is an `Or`-associative with exactly two operands whose
second operand is the negation of the first (shape `A | ~A`); for a conclusion
`A | B` with `B ≠ ~A` it returns `DoesNotOccur(B, ~A)`. -/
theorem c6_excluded_middle (p : ProofI) (conclusion : Expr) :
    Rule.num_deps RuleM.ExcludedMiddle = some 0 ∧
    (SharedChecks.check ⟨Rule.num_deps RuleM.ExcludedMiddle, Rule.num_subdeps RuleM.ExcludedMiddle,
        excludedMiddleCheck⟩ p conclusion [] [] = .ok
      ↔ ∃ a, conclusion = Expr.or a (Expr.not a)) ∧
    (∀ a b, b ≠ Expr.not a →
      SharedChecks.check ⟨Rule.num_deps RuleM.ExcludedMiddle, Rule.num_subdeps RuleM.ExcludedMiddle,
        excludedMiddleCheck⟩ p (Expr.or a b) [] [] = .err (.doesNotOccur b (.not a))) := by
  have hbody : ∀ c, SharedChecks.check ⟨Rule.num_deps RuleM.ExcludedMiddle,
      Rule.num_subdeps RuleM.ExcludedMiddle, excludedMiddleCheck⟩ p c [] []
      = excludedMiddleCheck p c [] [] := by
    intro c
    simp [SharedChecks.check, SharedChecks.checkSub, Rule.num_deps, Rule.num_subdeps,
      RedundantPrepositionalInference.num_deps, RuleM.ExcludedMiddle]
  refine ⟨rfl, ?_, ?_⟩
  · rw [hbody]
    constructor
    · intro h
      unfold excludedMiddleCheck at h
      simp only [List.isEmpty_nil, Bool.not_true, Bool.false_eq_true, if_false] at h
      cases conclusion with
      | assoc op operands =>
        cases op with
        | or =>
          rcases operands with _ | ⟨a, _ | ⟨b, _ | ⟨c, rest⟩⟩⟩
          · simp at h
          · simp at h
          · by_cases hb : b = Expr.not a
            · exact ⟨a, by rw [Expr.or, hb]⟩
            · simp [hb] at h
          · simp at h
        | and => simp at h
        | bicon => simp at h
        | equiv => simp at h
        | add => simp at h
        | mult => simp at h
      | contra => simp at h
      | var n => simp at h
      | pred n args => simp at h
      | not e => simp at h
      | impl a b => simp at h
      | quant k n b => simp at h
    · rintro ⟨a, rfl⟩
      simp [excludedMiddleCheck, Expr.or]
  · intro a b hb
    rw [hbody]
    simp [excludedMiddleCheck, Expr.or, hb]

/-- Witness for C6: the conclusion `A | ~A` is accepted with no dependencies,
and the conclusion `A | B` is rejected with `DoesNotOccur(B, ~A)`. -/
theorem c6_excluded_middle_witness :
    (SharedChecks.check ⟨Rule.num_deps RuleM.ExcludedMiddle, Rule.num_subdeps RuleM.ExcludedMiddle,
        excludedMiddleCheck⟩ ⟨fun _ => none, fun _ => none, fun _ => none⟩
      (Expr.or (.var "A") (.not (.var "A"))) [] [] = .ok) ∧
    (SharedChecks.check ⟨Rule.num_deps RuleM.ExcludedMiddle, Rule.num_subdeps RuleM.ExcludedMiddle,
        excludedMiddleCheck⟩ ⟨fun _ => none, fun _ => none, fun _ => none⟩
      (Expr.or (.var "A") (.var "B")) [] []
      = .err (.doesNotOccur (.var "B") (.not (.var "A")))) :=
  ⟨(c6_excluded_middle ⟨fun _ => none, fun _ => none, fun _ => none⟩
      (Expr.or (.var "A") (.not (.var "A")))).2.1.mpr ⟨.var "A", rfl⟩,
   (c6_excluded_middle ⟨fun _ => none, fun _ => none, fun _ => none⟩
      (.var "X")).2.2 (.var "A") (.var "B") (by decide)⟩

/-- Claim C9: ImpIntro's and NotIntro's check bodies assert that the cited
subproof has exactly one premise: whenever the subproof reference resolves but
the premise count differs from 1, the check panics
(`assert_eq!(sproof.premises().len(), 1)`) instead of returning an error value;
by contrast, ExistsElim returns the error value
`Other("Subproof has {n} premises, expected 1.")` in the analogous case. -/
theorem c9_subproof_premise_arity (p : ProofI) (sr : Nat) (sproof : SubproofI)
    (hs : p.lookupSubproof sr = some sproof) (hn : sproof.premiseRefs.length ≠ 1)
    (conclusion : Expr) :
    (SharedChecks.check ⟨Rule.num_deps RuleM.ImpIntro, Rule.num_subdeps RuleM.ImpIntro,
        impIntroCheck⟩ p conclusion [] [sr]
      = .panicked "assertion failed: sproof.premises().len() == 1") ∧
    (SharedChecks.check ⟨Rule.num_deps RuleM.NotIntro, Rule.num_subdeps RuleM.NotIntro,
        notIntroCheck⟩ p conclusion [] [sr]
      = .panicked "assertion failed: sproof.premises().len() == 1") ∧
    (∀ dr name body, p.lookupExpr dr = some (.quant .existential name body) →
      SharedChecks.check ⟨Rule.num_deps RuleM.ExistsElim, Rule.num_subdeps RuleM.ExistsElim,
          existsElimCheck⟩ p conclusion [dr] [sr]
        = .err (.other ("Subproof has " ++ toString sproof.premiseRefs.length
            ++ " premises, expected 1."))) := by
  refine ⟨?_, ?_, ?_⟩
  · simp [SharedChecks.check, SharedChecks.checkSub, Rule.num_deps, Rule.num_subdeps,
      PrepositionalInference.num_deps, PrepositionalInference.num_subdeps, RuleM.ImpIntro,
      impIntroCheck, ProofI.lookupSubproofOrDie, hs, hn]
  · simp [SharedChecks.check, SharedChecks.checkSub, Rule.num_deps, Rule.num_subdeps,
      PrepositionalInference.num_deps, PrepositionalInference.num_subdeps, RuleM.NotIntro,
      notIntroCheck, ProofI.lookupSubproofOrDie, hs, hn]
  · intro dr name body hdr
    simp [SharedChecks.check, SharedChecks.checkSub, Rule.num_deps, Rule.num_subdeps,
      PredicateInference.num_deps, PredicateInference.num_subdeps, RuleM.ExistsElim,
      existsElimCheck, ProofI.lookupSubproofOrDie, ProofI.lookupExprOrDie, hs, hdr, hn]

/-- Concrete subproof with two premises, used to exercise the premise-count
assertions. -/
def twoPremiseSubproof : SubproofI :=
  ⟨[0, 1], [], [], fun _ => none, fun _ => [], []⟩

/-- Concrete proof owning `twoPremiseSubproof` (subproof reference 0) and an
existential premise (justification reference 5). -/
def twoPremiseProof : ProofI :=
  ⟨fun r => match r with
    | .inl 5 => some (.quant .existential "x" (.pred "P" [.var "x"]))
    | _ => none,
   fun _ => none,
   fun n => match n with
    | 0 => some twoPremiseSubproof
    | _ => none⟩

/-- Witness for C9: with a two-premise subproof, ImpIntro and NotIntro panic
while ExistsElim returns the `Other` error value. -/
theorem c9_subproof_premise_arity_witness :
    (SharedChecks.check ⟨Rule.num_deps RuleM.ImpIntro, Rule.num_subdeps RuleM.ImpIntro,
        impIntroCheck⟩ twoPremiseProof (.var "Q") [] [0]
      = .panicked "assertion failed: sproof.premises().len() == 1") ∧
    (SharedChecks.check ⟨Rule.num_deps RuleM.NotIntro, Rule.num_subdeps RuleM.NotIntro,
        notIntroCheck⟩ twoPremiseProof (.var "Q") [] [0]
      = .panicked "assertion failed: sproof.premises().len() == 1") ∧
    (SharedChecks.check ⟨Rule.num_deps RuleM.ExistsElim, Rule.num_subdeps RuleM.ExistsElim,
        existsElimCheck⟩ twoPremiseProof (.var "Q") [Sum.inl 5] [0]
      = .err (.other ("Subproof has " ++ toString twoPremiseSubproof.premiseRefs.length
          ++ " premises, expected 1."))) :=
  let T := c9_subproof_premise_arity twoPremiseProof 0 twoPremiseSubproof rfl
    (by decide) (.var "Q")
  ⟨T.1, T.2.1, T.2.2 (Sum.inl 5) "x" (.pred "P" [.var "x"]) rfl⟩

theorem biconElimOrderCheck_ok_iff (conclusion i j : Expr) :
    biconElimOrderCheck conclusion i j = .ok ↔
      ∃ exprs, i = .assoc .bicon exprs ∧ (∀ x ∈ biconElimOperandSet j, x ∈ exprs) ∧
        conclusion = biconElimExpected exprs (biconElimOperandSet j) := by
  cases i with
  | assoc op exprs =>
    cases op with
    | bicon =>
      simp only [biconElimOrderCheck]
      cases hfind : (biconElimOperandSet j).find? (fun prem => !exprs.contains prem) with
      | some prem =>
        simp only [hfind]
        constructor
        · intro h; exact AnyOrderResult.noConfusion h
        · rintro ⟨exprs2, heq, hsub, hconc⟩
          injection heq with _ heq2
          subst heq2
          have hprop := List.find?_some hfind
          have hmem := List.mem_of_find?_eq_some hfind
          simp only [Bool.not_eq_true] at hprop
          have := hsub prem hmem
          simp [List.contains, List.elem_eq_mem, this] at hprop
      | none =>
        simp only [hfind]
        have hsub : ∀ x ∈ biconElimOperandSet j, x ∈ exprs := by
          intro x hx
          have := List.find?_eq_none.mp hfind x hx
          simpa [List.contains, List.elem_eq_mem] using this
        by_cases hc : conclusion = biconElimExpected exprs (biconElimOperandSet j)
        · simp only [hc, ne_eq, not_true_eq_false, if_false]
          constructor
          · intro _; exact ⟨exprs, rfl, hsub, rfl⟩
          · intro _; trivial
        · simp only [ne_eq, hc, not_false_eq_true, if_true]
          constructor
          · intro h; exact AnyOrderResult.noConfusion h
          · rintro ⟨exprs2, heq, _, hconc⟩
            injection heq with _ heq2
            subst heq2
            exact absurd hconc hc
    | and => simp [biconElimOrderCheck]
    | or => simp [biconElimOrderCheck]
    | equiv => simp [biconElimOrderCheck]
    | add => simp [biconElimOrderCheck]
    | mult => simp [biconElimOrderCheck]
  | contra => simp [biconElimOrderCheck]
  | var n => simp [biconElimOrderCheck]
  | pred n args => simp [biconElimOrderCheck]
  | not e => simp [biconElimOrderCheck]
  | impl a b => simp [biconElimOrderCheck]
  | quant k n b => simp [biconElimOrderCheck]

/-- Claim C7: BiconditionalElim with two resolvable dependencies succeeds if
and only if, for some assignment of the two dependencies to roles `(i, j)`,
`i` is a biconditional with operand list `exprs`, every element of the operand
set of `j` (its operands if `j` is itself a biconditional, else the singleton
`j`) appears in `exprs`, and the conclusion equals the biconditional of the
operands of `exprs` not in that set (the single remaining operand when exactly
one remains). -/
theorem c7_biconditional_elim (p : ProofI) (conclusion : Expr) (r0 r1 : PJRef) (d0 d1 : Expr)
    (h0 : p.lookupExpr r0 = some d0) (h1 : p.lookupExpr r1 = some d1) :
    SharedChecks.check ⟨Rule.num_deps RuleM.BiconditionalElim,
        Rule.num_subdeps RuleM.BiconditionalElim, biconditionalElimCheck⟩
      p conclusion [r0, r1] [] = .ok
    ↔ ∃ i j, ((i = d0 ∧ j = d1) ∨ (i = d1 ∧ j = d0)) ∧
        ∃ exprs, i = .assoc .bicon exprs ∧
          (∀ x ∈ biconElimOperandSet j, x ∈ exprs) ∧
          conclusion = biconElimExpected exprs (biconElimOperandSet j) := by
  have hrun : SharedChecks.check ⟨Rule.num_deps RuleM.BiconditionalElim,
      Rule.num_subdeps RuleM.BiconditionalElim, biconditionalElimCheck⟩
      p conclusion [r0, r1] []
      = either_order d0 d1 (biconElimOrderCheck conclusion)
        (.depDoesNotExist (Expr.assocplaceholder .bicon) true) := by
    simp [SharedChecks.check, SharedChecks.checkSub, Rule.num_deps, Rule.num_subdeps,
      PrepositionalInference.num_deps, PrepositionalInference.num_subdeps,
      RuleM.BiconditionalElim, biconditionalElimCheck, ProofI.lookupExprOrDie, h0, h1]
  rw [hrun, either_order_ok_iff, biconElimOrderCheck_ok_iff, biconElimOrderCheck_ok_iff]
  constructor
  · rintro (h | h)
    · exact ⟨d0, d1, Or.inl ⟨rfl, rfl⟩, h⟩
    · exact ⟨d1, d0, Or.inr ⟨rfl, rfl⟩, h⟩
  · rintro ⟨i, j, (⟨rfl, rfl⟩ | ⟨rfl, rfl⟩), h⟩
    · exact Or.inl h
    · exact Or.inr h

/-- Witness for C7: from `A <-> B` and `A`, the conclusion `B` is accepted. -/
theorem c7_biconditional_elim_witness :
    SharedChecks.check ⟨Rule.num_deps RuleM.BiconditionalElim,
        Rule.num_subdeps RuleM.BiconditionalElim, biconditionalElimCheck⟩
      ⟨fun r => match r with
        | .inl 0 => some (.assoc .bicon [.var "A", .var "B"])
        | .inl 1 => some (.var "A")
        | _ => none, fun _ => none, fun _ => none⟩
      (.var "B") [Sum.inl 0, Sum.inl 1] [] = .ok :=
  (c7_biconditional_elim
      ⟨fun r => match r with
        | .inl 0 => some (.assoc .bicon [.var "A", .var "B"])
        | .inl 1 => some (.var "A")
        | _ => none, fun _ => none, fun _ => none⟩
      (.var "B") (Sum.inl 0) (Sum.inl 1)
      (.assoc .bicon [.var "A", .var "B"]) (.var "A") rfl rfl).mpr
    ⟨.assoc .bicon [.var "A", .var "B"], .var "A", Or.inl ⟨rfl, rfl⟩,
     [.var "A", .var "B"], rfl, by decide, by decide⟩

theorem Expr.not_ne_self (e : Expr) : Expr.not e ≠ e := by
  intro h
  have hsz := congrArg Expr.size h
  rw [show Expr.size (Expr.not e) = 1 + Expr.size e from rfl] at hsz
  omega

theorem do_expressions_contradict_ok_iff (a b : Expr) :
    do_expressions_contradict a b = .ok ↔ (a = .not b ∨ b = .not a) := by
  unfold do_expressions_contradict
  rw [either_order_ok_iff]
  have haux : ∀ x y : Expr,
      (match x with
        | Expr.not operand => if operand = y then AnyOrderResult.ok else .wrongOrder
        | _ => AnyOrderResult.wrongOrder) = .ok ↔ x = .not y := by
    intro x y
    cases x with
    | not operand =>
      by_cases hxy : operand = y
      · simp [hxy]
      · simp [hxy]
    | contra => simp
    | var n => simp
    | pred n args => simp
    | impl c d => simp
    | assoc op es => simp
    | quant k n b2 => simp
  rw [haux a b, haux b a]

theorem resolutionRemainderCheck_ok_iff (R : List Expr) :
    resolutionRemainderCheck (R.insertionSort exprLe) = .ok
    ↔ (R.length = 2 ∧ ∃ e, e ∈ R ∧ Expr.not e ∈ R) := by
  have hperm : List.Perm (R.insertionSort exprLe) R := List.perm_insertionSort _ R
  constructor
  · intro h
    cases hsort : R.insertionSort exprLe with
    | nil =>
      rw [hsort] at h
      simp [resolutionRemainderCheck] at h
    | cons e1 t1 =>
      cases t1 with
      | nil =>
        rw [hsort] at h
        simp [resolutionRemainderCheck] at h
      | cons e2 t2 =>
        cases t2 with
        | cons e3 rest =>
          rw [hsort] at h
          simp [resolutionRemainderCheck] at h
        | nil =>
          rw [hsort] at h hperm
          have hlen : R.length = 2 := by simpa using hperm.symm.length_eq
          have hcontra := (do_expressions_contradict_ok_iff e1 e2).mp
            (by simpa [resolutionRemainderCheck] using h)
          have he1 : e1 ∈ R := hperm.mem_iff.mp (by simp)
          have he2 : e2 ∈ R := hperm.mem_iff.mp (by simp)
          rcases hcontra with h1 | h1
          · exact ⟨hlen, e2, he2, h1 ▸ he1⟩
          · exact ⟨hlen, e1, he1, h1 ▸ he2⟩
  · rintro ⟨hlen, e, heR, hneR⟩
    have hslen : (R.insertionSort exprLe).length = 2 := by rw [hperm.length_eq]; exact hlen
    obtain ⟨x, y, hxy⟩ := List.length_eq_two.mp hslen
    rw [hxy]
    have hex : e ∈ [x, y] := hxy ▸ hperm.mem_iff.mpr heR
    have hnex : Expr.not e ∈ [x, y] := hxy ▸ hperm.mem_iff.mpr hneR
    simp only [List.mem_cons, List.not_mem_nil, or_false] at hex hnex
    show do_expressions_contradict x y = .ok
    rw [do_expressions_contradict_ok_iff]
    rcases hex with rfl | rfl
    · rcases hnex with h1 | h1
      · exact absurd h1 (Expr.not_ne_self e)
      · exact Or.inr h1.symm
    · rcases hnex with h1 | h1
      · exact Or.inl h1.symm
      · exact absurd h1 (Expr.not_ne_self e)

/-- Claim C8: Resolution with two resolvable dependencies gives the same
verdict (success or failure) when the dependencies are swapped; and the check
succeeds if and only if the set difference
`(disjuncts(dep1) ∪ disjuncts(dep2)) \ disjuncts(conclusion)` contains exactly
two expressions, one of which is the negation of the other. -/
theorem c8_resolution (p : ProofI) (conclusion : Expr) (r0 r1 : PJRef) (d0 d1 : Expr)
    (h0 : p.lookupExpr r0 = some d0) (h1 : p.lookupExpr r1 = some d1) :
    (SharedChecks.check ⟨Rule.num_deps RuleM.Resolution, Rule.num_subdeps RuleM.Resolution,
        resolutionCheck⟩ p conclusion [r0, r1] [] = .ok
      ↔ SharedChecks.check ⟨Rule.num_deps RuleM.Resolution, Rule.num_subdeps RuleM.Resolution,
        resolutionCheck⟩ p conclusion [r1, r0] [] = .ok) ∧
    (SharedChecks.check ⟨Rule.num_deps RuleM.Resolution, Rule.num_subdeps RuleM.Resolution,
        resolutionCheck⟩ p conclusion [r0, r1] [] = .ok
      ↔ (((d0.disjuncts ++ d1.disjuncts).dedup).filter
            (fun e => !conclusion.disjuncts.contains e)).length = 2 ∧
        ∃ e, e ∈ ((d0.disjuncts ++ d1.disjuncts).dedup).filter
            (fun e => !conclusion.disjuncts.contains e) ∧
          Expr.not e ∈ ((d0.disjuncts ++ d1.disjuncts).dedup).filter
            (fun e => !conclusion.disjuncts.contains e)) := by
  have hrun01 : SharedChecks.check ⟨Rule.num_deps RuleM.Resolution,
      Rule.num_subdeps RuleM.Resolution, resolutionCheck⟩ p conclusion [r0, r1] []
      = resolutionRemainderCheck ((((d0.disjuncts ++ d1.disjuncts).dedup).filter
          (fun e => !conclusion.disjuncts.contains e)).insertionSort exprLe) := by
    simp [SharedChecks.check, SharedChecks.checkSub, Rule.num_deps, Rule.num_subdeps,
      AutomationRelatedRules.num_deps, RuleM.Resolution, resolutionCheck,
      ProofI.lookupExprOrDie, h0, h1]
  have hrun10 : SharedChecks.check ⟨Rule.num_deps RuleM.Resolution,
      Rule.num_subdeps RuleM.Resolution, resolutionCheck⟩ p conclusion [r1, r0] []
      = resolutionRemainderCheck ((((d1.disjuncts ++ d0.disjuncts).dedup).filter
          (fun e => !conclusion.disjuncts.contains e)).insertionSort exprLe) := by
    simp [SharedChecks.check, SharedChecks.checkSub, Rule.num_deps, Rule.num_subdeps,
      AutomationRelatedRules.num_deps, RuleM.Resolution, resolutionCheck,
      ProofI.lookupExprOrDie, h0, h1]
  have hmem : ∀ x, x ∈ ((d0.disjuncts ++ d1.disjuncts).dedup).filter
      (fun e => !conclusion.disjuncts.contains e)
      ↔ x ∈ ((d1.disjuncts ++ d0.disjuncts).dedup).filter
      (fun e => !conclusion.disjuncts.contains e) := by
    intro x
    simp only [List.mem_filter, List.mem_dedup, List.mem_append]
    rw [or_comm]
  have h01nodup : (((d0.disjuncts ++ d1.disjuncts).dedup).filter
      (fun e => !conclusion.disjuncts.contains e)).Nodup :=
    List.Nodup.filter _ (List.nodup_dedup _)
  have h10nodup : (((d1.disjuncts ++ d0.disjuncts).dedup).filter
      (fun e => !conclusion.disjuncts.contains e)).Nodup :=
    List.Nodup.filter _ (List.nodup_dedup _)
  have hlen : (((d0.disjuncts ++ d1.disjuncts).dedup).filter
      (fun e => !conclusion.disjuncts.contains e)).length
      = (((d1.disjuncts ++ d0.disjuncts).dedup).filter
      (fun e => !conclusion.disjuncts.contains e)).length :=
    ((List.perm_ext_iff_of_nodup h01nodup h10nodup).mpr hmem).length_eq
  constructor
  · rw [hrun01, hrun10, resolutionRemainderCheck_ok_iff, resolutionRemainderCheck_ok_iff]
    constructor
    · rintro ⟨hl, e, he, hne⟩
      exact ⟨hlen ▸ hl, e, (hmem e).mp he, (hmem _).mp hne⟩
    · rintro ⟨hl, e, he, hne⟩
      exact ⟨hlen ▸ hl, e, (hmem e).mpr he, (hmem _).mpr hne⟩
  · rw [hrun01, resolutionRemainderCheck_ok_iff]

/-- Witness for C8: from `A | B` and `~A | C` with conclusion `B | C`, the
remainder set is `{A, ~A}` and the check succeeds; the theorem is applied at
that concrete input. -/
theorem c8_resolution_witness :
    SharedChecks.check ⟨Rule.num_deps RuleM.Resolution, Rule.num_subdeps RuleM.Resolution,
        resolutionCheck⟩
      ⟨fun r => match r with
        | .inl 0 => some (Expr.or (.var "A") (.var "B"))
        | .inl 1 => some (Expr.or (.not (.var "A")) (.var "C"))
        | _ => none, fun _ => none, fun _ => none⟩
      (Expr.or (.var "B") (.var "C")) [Sum.inl 0, Sum.inl 1] [] = .ok :=
  ((c8_resolution
      ⟨fun r => match r with
        | .inl 0 => some (Expr.or (.var "A") (.var "B"))
        | .inl 1 => some (Expr.or (.not (.var "A")) (.var "C"))
        | _ => none, fun _ => none, fun _ => none⟩
      (Expr.or (.var "B") (.var "C")) (Sum.inl 0) (Sum.inl 1)
      (Expr.or (.var "A") (.var "B")) (Expr.or (.not (.var "A")) (.var "C"))
      rfl rfl).2).mpr
    ⟨by decide, .var "A", by decide, by decide⟩
